import Mathlib

/-!
Package `ssid`: prefix-qualified sequence identifiers.

A shallow embedding of `ssid.go` (package `ssid`) and of the library calls it
makes, followed by theorems about `GenerateID` and `ensureSequenceExists`.

Modelling conventions.

* Go `string` is `String`, Go `int` and `int64` are `Int` (no arithmetic is done
  on them by the package, so no wrap-around can occur).
* A Go `map[string]T` is an association list read with `List.lookup`; a missing
  key reads as the zero value of `T`.
* The database behind `*gorm.DB` is an external collaborator.  It is a parameter
  `Database H σ`: `H` is the handle stored in the generator, `σ` the state of the
  database server, and each call returns its outcome and the next server state.
* Every database call made by the package is appended to a log, so that what a
  call issues (and in which order) can be stated.
* `sg.mu.Lock()` and the deferred `Unlock()` guard the body of
  `ensureSequenceExists`; in this sequential embedding they are no-ops.
-/

namespace Ssid

/-! ## Go error values -/

/-- Go `error` values: `errorString` is what `fmt.Errorf` builds without `%w`
(and stands for any error that wraps nothing), `wrapError` is what `fmt.Errorf`
builds with one `%w` operand. -/
inductive GoError where
  | errorString (s : String)
  | wrapError (msg : String) (err : GoError)
  deriving DecidableEq, Repr

/-- The method `Error()` of an error value. -/
def GoError.Error : GoError → String
  | .errorString s => s
  | .wrapError msg _ => msg

/-- The method `Unwrap()` as seen through `errors.Unwrap`. -/
def GoError.Unwrap : GoError → Option GoError
  | .errorString _ => none
  | .wrapError _ err => some err

/-! ## `fmt.Sprintf("%s%0*d", s, width, v)` -/

/-- Base 10 digits written by `(*fmt).fmtInteger`, most significant first. -/
def fmtDigits (u : Nat) : List Char := Nat.toDigits 10 u

/-- The fields of `fmt.fmt` that the verb `%d` reads. -/
structure FmtFlags where
  wid : Nat
  widPresent : Bool
  minus : Bool
  zero : Bool
  deriving DecidableEq, Repr

/-- The constant `badWidthString` of package `fmt`. -/
def badWidthString : String := "%!(BADWIDTH)"

/-- The function `tooLarge` of package `fmt` (`const max int = 1e6`). -/
def tooLarge (x : Int) : Bool := decide (x > 1000000) || decide (x < -1000000)

/-- The method `(*fmt).writePadding` with the zero flag cleared: `n` blanks, none when `n ≤ 0`. -/
def writePadding (n : Int) : List Char := List.replicate n.toNat ' '

/-- The method `(*fmt).pad`, as called at the end of `fmtInteger` (zero flag cleared). -/
def pad (f : FmtFlags) (b : List Char) : List Char :=
  if !f.widPresent || f.wid == 0 then b
  else
    let width : Int := (f.wid : Int) - (b.length : Int)
    if !f.minus then writePadding width ++ b else b ++ writePadding width

/-- The method `(*fmt).fmtInteger` for a signed operand, base 10, no precision, no
plus or space flag. -/
def fmtInteger (f : FmtFlags) (v : Int) : List Char :=
  let negative : Bool := decide (v < 0)
  let u : Nat := v.natAbs
  let prec : Int :=
    if f.zero && !f.minus && f.widPresent then
      (if negative then (f.wid : Int) - 1 else (f.wid : Int))
    else 0
  let digits := fmtDigits u
  let buf := List.replicate (prec - (digits.length : Int)).toNat '0' ++ digits
  let buf := if negative then '-' :: buf else buf
  pad f buf

/-- The flags with which `doPrintf` reaches the verb in `%0*d`, given the `int`
operand taken for `*`: `none` when `intFromArg` rejects it (`tooLarge`), a negative
width sets `minus`, clears `zero` and is negated. -/
def starWidth (width : Int) : Option FmtFlags :=
  if tooLarge width then none
  else if width < 0 then some (FmtFlags.mk (-width).toNat true true false)
  else some (FmtFlags.mk width.toNat true false true)

/-- The call `fmt.Sprintf("%s%0*d", s, width, v)` with `s string`, `width int`,
`v int64`. -/
def Sprintf (s : String) (width : Int) (v : Int) : String :=
  match starWidth width with
  | none => s ++ badWidthString ++ String.mk (fmtInteger (FmtFlags.mk 0 false false true) v)
  | some f => s ++ String.mk (fmtInteger f v)

/-! ## `pq.QuoteIdentifier` -/

/-- The double quote character. -/
def dquote : Char := Char.ofNat 34

/-- The function `strings.Replace(name, "\"", "\"\"", -1)` on the characters of `name`. -/
def doubleQuotes : List Char → List Char
  | [] => []
  | c :: cs => if c = dquote then dquote :: dquote :: doubleQuotes cs else c :: doubleQuotes cs

/-- The function `pq.QuoteIdentifier`: cut at the first NUL, double every double
quote, wrap in double quotes. -/
def QuoteIdentifier (name : String) : String :=
  let cut := name.data.takeWhile (fun c => c != Char.ofNat 0)
  String.mk (dquote :: (doubleQuotes cut ++ [dquote]))

/-! ## The package -/

/-- The type `SSID`. -/
structure SSID where
  ID : String
  deriving DecidableEq, Repr

/-- The method `SSID.String`. -/
def SSID.String (s : SSID) : String := s.ID

/-- The element type of `PrefixConfig`. -/
structure ConfigEntry where
  Length : Int
  SeqName : String
  deriving DecidableEq, Repr

/-- The type `PrefixConfig`, a map from prefix to its entry. -/
abbrev PrefixConfig := List (String × ConfigEntry)

/-- The type `SequenceGenerator` (without its mutex). -/
structure SequenceGenerator (H : Type) where
  DB : H
  Config : PrefixConfig
  createdSequences : List (String × Bool)
  deriving DecidableEq, Repr

/-- The outcome of `Raw(...).Scan(&nextVal)`: the scanned value, or the error. -/
inductive ScanResult where
  | value (v : Int)
  | failure (e : GoError)
  deriving DecidableEq, Repr

/-- The database as the package uses it: `Exec(query).Error` and
`Raw(sql, arg).Scan(&nextVal).Error`, each stepping the server state. -/
structure Database (H σ : Type) where
  Exec : H → String → σ → Option GoError × σ
  RawScan : H → String → String → σ → ScanResult × σ

/-- One database call as issued by the package, with its outcome. -/
inductive DBCall where
  | Exec (query : String) (err : Option GoError)
  | RawScan (sql : String) (arg : String) (res : ScanResult)
  deriving DecidableEq, Repr

/-- What a method leaves behind: its return value, the generator, the server
state and the database calls it issued, oldest first. -/
structure Step (α H σ : Type) where
  ret : α
  sg : SequenceGenerator H
  world : σ
  log : List DBCall

/-- Reading `m[k]` of a `map[string]bool`. -/
def mapGet (m : List (String × Bool)) (k : String) : Bool := (m.lookup k).getD false

/-- The assignment `m[k] = v` of a `map[string]bool`. -/
def mapSet (m : List (String × Bool)) (k : String) (v : Bool) : List (String × Bool) :=
  (k, v) :: m.filter (fun e => e.1 != k)

/-- The text of the statement built in `ensureSequenceExists`. -/
def createQuery (seqName : String) : String :=
  "CREATE SEQUENCE IF NOT EXISTS " ++ QuoteIdentifier seqName ++
    " INCREMENT BY 1 START WITH 1 MINVALUE 1 NO CYCLE"

/-- The text of the query run in `GenerateID`. -/
def nextvalQuery : String := "SELECT nextval($1)"

/-- The method `(*SequenceGenerator).ensureSequenceExists`. -/
def ensureSequenceExists {H σ : Type} (db : Database H σ) (sg : SequenceGenerator H)
    (seqName : String) (world : σ) : Step (Option GoError) H σ :=
  if mapGet sg.createdSequences seqName then
    ⟨none, sg, world, []⟩
  else
    let query := createQuery seqName
    match db.Exec sg.DB query world with
    | (some err, world1) =>
      ⟨some (GoError.wrapError ("failed to create sequence " ++ seqName ++ ": " ++ err.Error) err),
        sg, world1, [DBCall.Exec query (some err)]⟩
    | (none, world1) =>
      ⟨none, ⟨sg.DB, sg.Config, mapSet sg.createdSequences seqName true⟩, world1,
        [DBCall.Exec query none]⟩

/-- The method `(*SequenceGenerator).GenerateID`; `ret` is the pair `(SSID, error)`. -/
def GenerateID {H σ : Type} (db : Database H σ) (sg : SequenceGenerator H)
    (pfx : String) (world : σ) : Step (SSID × Option GoError) H σ :=
  match sg.Config.lookup pfx with
  | none =>
    ⟨(⟨""⟩, some (GoError.errorString ("no configuration found for prefix " ++ pfx))),
      sg, world, []⟩
  | some config =>
    let e := ensureSequenceExists db sg config.SeqName world
    match e.ret with
    | some err => ⟨(⟨""⟩, some err), e.sg, e.world, e.log⟩
    | none =>
      match db.RawScan e.sg.DB nextvalQuery config.SeqName e.world with
      | (ScanResult.failure err, world2) =>
        ⟨(⟨""⟩, some (GoError.wrapError ("failed to generate next ID: " ++ err.Error) err)),
          e.sg, world2,
          e.log ++ [DBCall.RawScan nextvalQuery config.SeqName (ScanResult.failure err)]⟩
      | (ScanResult.value nextVal, world2) =>
        ⟨(⟨Sprintf pfx config.Length nextVal⟩, none), e.sg, world2,
          e.log ++ [DBCall.RawScan nextvalQuery config.SeqName (ScanResult.value nextVal)]⟩

/-- The function `NewSequenceGenerator`; `ret` is the error, always `nil`.  The
cache is `make(map[string]bool)`, the empty map; the function makes no database
call, so the server state is returned as it was and the log is empty. -/
def NewSequenceGenerator {H σ : Type} (db : H) (config : PrefixConfig) (world : σ) :
    Step (Option GoError) H σ :=
  ⟨none, ⟨db, config, []⟩, world, []⟩


/-! ## Runs and counts -/

/-- A finite sequence of `GenerateID` calls on one generator, each starting from
the generator and server state the previous one left; every call is recorded with
its prefix. -/
def runCalls {H σ : Type} (db : Database H σ) :
    SequenceGenerator H → σ → List String → List (String × Step (SSID × Option GoError) H σ)
  | _, _, [] => []
  | sg, world, p :: ps =>
    let r := GenerateID db sg p world
    (p, r) :: runCalls db r.sg r.world ps

/-- Number of `Exec` calls (creation statements) in a log. -/
def execCount : List DBCall → Nat
  | [] => 0
  | DBCall.Exec _ _ :: l => execCount l + 1
  | DBCall.RawScan _ _ _ :: l => execCount l

/-- Number of `Exec` calls in a log that returned an error. -/
def execFailCount : List DBCall → Nat
  | [] => 0
  | DBCall.Exec _ (some _) :: l => execFailCount l + 1
  | _ :: l => execFailCount l

/-- Number of `Raw(...).Scan` calls (next-value fetches) in a log. -/
def fetchCount : List DBCall → Nat
  | [] => 0
  | DBCall.RawScan _ _ _ :: l => fetchCount l + 1
  | DBCall.Exec _ _ :: l => fetchCount l

/-- Whether prefix `p` is configured with counter name `n`. -/
def usesSeq (cfg : PrefixConfig) (n : String) (p : String) : Bool :=
  match cfg.lookup p with
  | some e => e.SeqName == n
  | none => false

/-- Creation statements issued for counter name `n` over a run: those issued by
the calls whose prefix is configured with `n`. -/
def creationsFor {H σ : Type} (cfg : PrefixConfig) (n : String) :
    List (String × Step (SSID × Option GoError) H σ) → Nat
  | [] => 0
  | (p, r) :: rs =>
    (if usesSeq cfg n p then execCount r.log else 0) + creationsFor cfg n rs

/-- Creation statements for counter name `n` over a run that returned an error. -/
def failedCreationsFor {H σ : Type} (cfg : PrefixConfig) (n : String) :
    List (String × Step (SSID × Option GoError) H σ) → Nat
  | [] => 0
  | (p, r) :: rs =>
    (if usesSeq cfg n p then execFailCount r.log else 0) + failedCreationsFor cfg n rs

/-- Value read off a list of characters, least significant digit first; characters
that are not decimal digits are skipped. -/
def digitsValueRev : List Char → Nat
  | [] => 0
  | c :: cs => if c.isDigit then (c.toNat - 48) + 10 * digitsValueRev cs else digitsValueRev cs

/-- Value of the decimal digits of a string, read left to right, other characters
skipped. -/
def digitsValue (s : String) : Nat := digitsValueRev s.data.reverse

/-- The formatting in the words of the specification: the decimal numeral of `v`
with `max 0 (w - length)` characters `0` in front of it. -/
def zeroPadded (w v : Nat) : String :=
  String.mk (List.replicate (w - (Nat.repr v).length) '0') ++ Nat.repr v

/-! ## Database models used as concrete inputs -/

/-- A database that answers every `Exec` with `execErr` and every fetch with
`fetchRes`, and has no state. -/
def constDB (execErr : Option GoError) (fetchRes : ScanResult) : Database Unit Unit :=
  ⟨fun _ _ _ => (execErr, ()), fun _ _ _ _ => (fetchRes, ())⟩

/-- A database of counters.  The server state lists, for every statement executed
so far, its text with the last value handed out by the counter it created (0
before the first fetch).  `Exec` never fails and creates the counter when it does
not exist; a fetch for name `arg` addresses the counter created by
`createQuery arg`, returns the previous value plus 1, and fails when that counter
was never created. -/
def seqDB : Database Unit (List (String × Int)) :=
  ⟨fun _ query s =>
      match s.lookup query with
      | some _ => (none, s)
      | none => (none, (query, 0) :: s),
    fun _ _ arg s =>
      match s.lookup (createQuery arg) with
      | some c => (ScanResult.value (c + 1),
          (createQuery arg, c + 1) :: s.filter (fun e => e.1 != createQuery arg))
      | none => (ScanResult.failure (GoError.errorString "sequence does not exist"), s)⟩

/-- The generator of the scenario `ORD`, width 4, counter `ord_seq`, fresh. -/
def sgORD : SequenceGenerator Unit := ⟨(), [("ORD", ⟨4, "ord_seq"⟩)], []⟩

/-- The generator of the scenario `X`, width 2, counter `x_seq`, fresh. -/
def sgX : SequenceGenerator Unit := ⟨(), [("X", ⟨2, "x_seq"⟩)], []⟩

/-- A generator whose only prefix `X` has width 1000001. -/
def sgWide : SequenceGenerator Unit := ⟨(), [("X", ⟨1000001, "x_seq"⟩)], []⟩

/-- A generator whose only prefix `ORD` has width 1000001, fresh. -/
def sgORDWide : SequenceGenerator Unit := ⟨(), [("ORD", ⟨1000001, "ord_seq"⟩)], []⟩

/-- A generator whose only prefix `X` has the negative width -4, fresh. -/
def sgNeg : SequenceGenerator Unit := ⟨(), [("X", ⟨-4, "x_seq"⟩)], []⟩

/-- A generator with the two prefixes `A` and `A1`, both of width 1, fresh. -/
def sgAA1 : SequenceGenerator Unit :=
  ⟨(), [("A", ⟨1, "a_seq"⟩), ("A1", ⟨1, "b_seq"⟩)], []⟩

/-- A generator with the two prefixes `ORD` and `INV`, fresh. -/
def sgTwo : SequenceGenerator Unit :=
  ⟨(), [("ORD", ⟨4, "ord_seq"⟩), ("INV", ⟨6, "inv_seq"⟩)], []⟩

/-! ## Further notions used in the statements -/

/-- The generator and server state after a finite sequence of `GenerateID` calls. -/
def runState {H σ : Type} (db : Database H σ) :
    SequenceGenerator H → σ → List String → SequenceGenerator H × σ
  | sg, world, [] => (sg, world)
  | sg, world, p :: ps =>
    runState db (GenerateID db sg p world).sg (GenerateID db sg p world).world ps

/-- Whether the characters `l` begin with the characters `sub`. -/
def startsWithChars : List Char → List Char → Bool
  | _, [] => true
  | [], _ :: _ => false
  | c :: cs, d :: ds => c == d && startsWithChars cs ds

/-- Whether the characters `sub` occur in `l` as a contiguous run. -/
def containsChars : List Char → List Char → Bool
  | [], sub => sub.isEmpty
  | c :: cs, sub => startsWithChars (c :: cs) sub || containsChars cs sub

/-- Whether the text `sub` occurs in `s` (Go's `strings.Contains`). -/
def containsText (s sub : String) : Bool := containsChars s.data sub.data

/-- The characters of a name up to its first NUL. -/
def cutAtNUL (l : List Char) : List Char := l.takeWhile (fun c => c != Char.ofNat 0)

/-- The quoting in the words of the specification: the name cut at its first NUL,
every double quote doubled, wrapped in one pair of double quotes. -/
def quotedSpec (name : String) : String :=
  String.mk ([dquote] ++ (cutAtNUL name.data).flatMap
    (fun c => if c = dquote then [dquote, dquote] else [c]) ++ [dquote])

/-- Reading the body of a double-quoted SQL identifier, after its opening quote: a
doubled quote reads as one quote, a single quote ends the identifier.  The result
is the identifier read and the characters left unread, `none` when the identifier
is not terminated. -/
def scanQuotedBody : List Char → Option (List Char × List Char)
  | [] => none
  | [c] => if c = dquote then some ([], []) else none
  | c :: d :: ds =>
    if c = dquote then
      (if d = dquote then (scanQuotedBody ds).map (fun r => (dquote :: r.1, r.2))
       else some ([], d :: ds))
    else (scanQuotedBody (d :: ds)).map (fun r => (c :: r.1, r.2))

/-- Reading a double-quoted SQL identifier: an opening quote, then its body. -/
def scanQuotedIdentifier : List Char → Option (List Char × List Char)
  | [] => none
  | c :: cs => if c = dquote then scanQuotedBody cs else none

/-! ## Lemmas on decimal digits -/

theorem toDigitsCore_append (f : Nat) : ∀ (n : Nat) (ds : List Char),
    Nat.toDigitsCore 10 f n ds = Nat.toDigitsCore 10 f n [] ++ ds := by
  induction f with
  | zero => intro n ds; simp [Nat.toDigitsCore]
  | succ f ih =>
    intro n ds
    simp only [Nat.toDigitsCore]
    by_cases h : n / 10 = 0
    · simp [h]
    · simp only [h, if_false]
      rw [ih (n / 10) (Nat.digitChar (n % 10) :: ds), ih (n / 10) [Nat.digitChar (n % 10)]]
      simp

theorem digitChar_isDigit (d : Nat) (h : d < 10) : (Nat.digitChar d).isDigit = true := by
  interval_cases d <;> decide

theorem digitChar_value (d : Nat) (h : d < 10) : (Nat.digitChar d).toNat - 48 = d := by
  interval_cases d <;> decide

theorem toDigitsCore_spec (f : Nat) : ∀ n : Nat, n < f →
    (∀ c ∈ Nat.toDigitsCore 10 f n [], c.isDigit = true) ∧
    digitsValueRev (Nat.toDigitsCore 10 f n []).reverse = n := by
  induction f with
  | zero => intro n h; omega
  | succ f ih =>
    intro n hn
    have hd : n % 10 < 10 := Nat.mod_lt _ (by decide)
    simp only [Nat.toDigitsCore]
    by_cases h : n / 10 = 0
    · have hlt : n < 10 := by omega
      have hmod : n % 10 = n := Nat.mod_eq_of_lt hlt
      simp [h, digitsValueRev, digitChar_isDigit _ hlt, digitChar_value _ hlt, hmod]
    · simp only [h, if_false]
      rw [toDigitsCore_append]
      have hlt : n / 10 < f := by omega
      obtain ⟨h1, h2⟩ := ih (n / 10) hlt
      constructor
      · intro c hc
        rcases List.mem_append.mp hc with hc | hc
        · exact h1 c hc
        · simp only [List.mem_singleton] at hc
          rw [hc]; exact digitChar_isDigit _ hd
      · simp only [List.reverse_append, List.reverse_cons, List.reverse_nil, List.nil_append,
          List.singleton_append, digitsValueRev, digitChar_isDigit _ hd, if_true,
          digitChar_value _ hd, h2]
        omega

theorem fmtDigits_isDigit (u : Nat) : ∀ c ∈ fmtDigits u, c.isDigit = true :=
  (toDigitsCore_spec (u + 1) u (Nat.lt_succ_self u)).1

theorem fmtDigits_value (u : Nat) : digitsValueRev (fmtDigits u).reverse = u :=
  (toDigitsCore_spec (u + 1) u (Nat.lt_succ_self u)).2

theorem fmtDigits_repr (u : Nat) : String.mk (fmtDigits u) = Nat.repr u := rfl


theorem digitsValueRev_nondigits (ys : List Char) (h : ∀ c ∈ ys, c.isDigit = false) :
    digitsValueRev ys = 0 := by
  induction ys with
  | nil => rfl
  | cons y ys ih =>
    have hy : y.isDigit = false := h y (List.mem_cons_self _ _)
    simp only [digitsValueRev, hy]
    exact ih (fun c hc => h c (List.mem_cons_of_mem _ hc))

theorem digitsValueRev_append_nondigits (xs ys : List Char)
    (h : ∀ c ∈ ys, c.isDigit = false) :
    digitsValueRev (xs ++ ys) = digitsValueRev xs := by
  induction xs with
  | nil => simpa [digitsValueRev] using digitsValueRev_nondigits ys h
  | cons x xs ih =>
    show digitsValueRev (x :: (xs ++ _)) = digitsValueRev (x :: xs)
    simp only [digitsValueRev, ih]

theorem digitsValueRev_nondigits_append (ys xs : List Char)
    (h : ∀ c ∈ ys, c.isDigit = false) :
    digitsValueRev (ys ++ xs) = digitsValueRev xs := by
  induction ys with
  | nil => rfl
  | cons y ys ih =>
    have hy : y.isDigit = false := h y (List.mem_cons_self _ _)
    simp only [List.cons_append, digitsValueRev, hy]
    exact ih (fun c hc => h c (List.mem_cons_of_mem _ hc))

theorem digitsValueRev_zeros (k : Nat) : digitsValueRev (List.replicate k '0') = 0 := by
  induction k with
  | zero => rfl
  | succ k ih =>
    have h0 : ('0' : Char).isDigit = true := by decide
    have h1 : ('0' : Char).toNat - 48 = 0 := by decide
    simp only [List.replicate_succ, digitsValueRev, h0, if_true, h1, ih]

theorem digitsValueRev_append_zeros (xs : List Char) (k : Nat) :
    digitsValueRev (xs ++ List.replicate k '0') = digitsValueRev xs := by
  induction xs with
  | nil => simpa [digitsValueRev] using digitsValueRev_zeros k
  | cons x xs ih =>
    show digitsValueRev (x :: (xs ++ _)) = digitsValueRev (x :: xs)
    simp only [digitsValueRev, ih]

theorem blanks_nondigits (k : Nat) : ∀ c ∈ List.replicate k ' ', c.isDigit = false := by
  intro c hc
  rw [(List.mem_replicate.mp hc).2]
  decide

theorem pad_value (f : FmtFlags) (b : List Char) :
    digitsValueRev (pad f b).reverse = digitsValueRev b.reverse := by
  unfold pad writePadding
  split
  · rfl
  · split
    · rw [List.reverse_append, List.reverse_replicate]
      exact digitsValueRev_append_nondigits _ _ (blanks_nondigits _)
    · rw [List.reverse_append, List.reverse_replicate]
      exact digitsValueRev_nondigits_append _ _ (blanks_nondigits _)

theorem fmtInteger_value (f : FmtFlags) (v : Int) (hv : 0 ≤ v) :
    digitsValueRev (fmtInteger f v).reverse = v.toNat := by
  have hneg : decide (v < 0) = false := by simp; omega
  have hu : v.natAbs = v.toNat := by omega
  simp only [fmtInteger, hneg, hu, pad_value, Bool.false_eq_true, if_false]
  rw [List.reverse_append, List.reverse_replicate, digitsValueRev_append_zeros]
  exact fmtDigits_value _

theorem fmtInteger_zero_flag (wid : Nat) (v : Int) (hv : 0 ≤ v) :
    fmtInteger (FmtFlags.mk wid true false true) v =
      List.replicate (wid - (fmtDigits v.toNat).length) '0' ++ fmtDigits v.toNat := by
  have hneg : decide (v < 0) = false := by simp; omega
  have hu : v.natAbs = v.toNat := by omega
  simp only [fmtInteger, hneg, hu, pad, writePadding]
  have hz : ((wid : Int) - ((fmtDigits v.toNat).length : Int)).toNat
      = wid - (fmtDigits v.toNat).length := by omega
  simp only [Bool.and_self, Bool.not_false, Bool.not_true, Bool.false_or, Bool.false_eq_true,
    if_false, if_true, hz, beq_iff_eq]
  split
  · rfl
  · have hk : ((wid : Int) - ((List.replicate (wid - (fmtDigits v.toNat).length) '0'
        ++ fmtDigits v.toNat).length : Int)).toNat = 0 := by
      simp only [List.length_append, List.length_replicate]
      omega
    rw [hk]
    rfl

theorem starWidth_nonneg (w : Int) (h0 : 0 ≤ w) (h1 : w ≤ 1000000) :
    starWidth w = some (FmtFlags.mk w.toNat true false true) := by
  have ht : tooLarge w = false := by
    simp only [tooLarge, Bool.or_eq_false_iff, decide_eq_false_iff_not]
    omega
  have hn : ¬ w < 0 := by omega
  simp [starWidth, ht, hn]

theorem zeroPadded_data (w v : Nat) :
    (zeroPadded w v).data
      = List.replicate (w - (fmtDigits v).length) '0' ++ fmtDigits v := by
  simp [zeroPadded, Nat.repr, fmtDigits, String.length, List.asString]

/-- For a width between 0 and 1000000 and a value that is not negative, the
formatting call yields the prefix followed by the zero-padded numeral. -/
theorem Sprintf_zeroPadded (s : String) (w v : Int) (h0 : 0 ≤ w) (h1 : w ≤ 1000000)
    (hv : 0 ≤ v) : Sprintf s w v = s ++ zeroPadded w.toNat v.toNat := by
  simp only [Sprintf, starWidth_nonneg w h0 h1, fmtInteger_zero_flag _ v hv]
  congr 1

theorem zeroPadded_digits (w v : Nat) : ∀ c ∈ (zeroPadded w v).data, c.isDigit = true := by
  intro c hc
  rw [zeroPadded_data] at hc
  rcases List.mem_append.mp hc with hc | hc
  · rw [(List.mem_replicate.mp hc).2]; decide
  · exact fmtDigits_isDigit v c hc

theorem zeroPadded_length (w v : Nat) :
    (zeroPadded w v).length = max w (Nat.repr v).length := by
  have h : (Nat.repr v).length = (fmtDigits v).length := rfl
  rw [h]
  simp only [String.length, zeroPadded_data, List.length_append, List.length_replicate]
  omega

theorem zeroPadded_short (w v : Nat) (h : w < (Nat.repr v).length) :
    zeroPadded w v = Nat.repr v := by
  have h0 : w - (Nat.repr v).length = 0 := by omega
  apply String.ext
  simp [zeroPadded, h0]


/-! ## Lemmas on the existence cache and on single calls -/

theorem mapGet_mapSet_self (m : List (String × Bool)) (k : String) (v : Bool) :
    mapGet (mapSet m k v) k = v := by
  simp [mapGet, mapSet, List.lookup]

theorem lookup_filter_ne (m : List (String × Bool)) (k j : String) (h : j ≠ k) :
    (m.filter (fun e => e.1 != k)).lookup j = m.lookup j := by
  induction m with
  | nil => rfl
  | cons e m ih =>
    obtain ⟨a, b⟩ := e
    by_cases hak : a = k
    · subst hak
      have hja : (j == a) = false := by simpa using h
      simp [List.filter, List.lookup, hja, ih]
    · have hne : (a != k) = true := by simpa using hak
      simp only [List.filter, hne, List.lookup]
      split <;> simp_all

theorem mapGet_mapSet_ne (m : List (String × Bool)) (k j : String) (v : Bool) (h : j ≠ k) :
    mapGet (mapSet m k v) j = mapGet m j := by
  have hjk : (j == k) = false := by simpa using h
  simp [mapGet, mapSet, List.lookup, hjk, lookup_filter_ne m k j h]

theorem ensure_fast {H σ : Type} (db : Database H σ) (sg : SequenceGenerator H) (n : String)
    (world : σ) (h : mapGet sg.createdSequences n = true) :
    ensureSequenceExists db sg n world = ⟨none, sg, world, []⟩ := by
  simp [ensureSequenceExists, h]

theorem ensure_slow_fail {H σ : Type} (db : Database H σ) (sg : SequenceGenerator H)
    (n : String) (world world1 : σ) (e : GoError)
    (h : mapGet sg.createdSequences n = false)
    (hexec : db.Exec sg.DB (createQuery n) world = (some e, world1)) :
    ensureSequenceExists db sg n world =
      ⟨some (GoError.wrapError ("failed to create sequence " ++ n ++ ": " ++ e.Error) e),
        sg, world1, [DBCall.Exec (createQuery n) (some e)]⟩ := by
  simp [ensureSequenceExists, h, hexec]

theorem ensure_slow_ok {H σ : Type} (db : Database H σ) (sg : SequenceGenerator H)
    (n : String) (world world1 : σ)
    (h : mapGet sg.createdSequences n = false)
    (hexec : db.Exec sg.DB (createQuery n) world = (none, world1)) :
    ensureSequenceExists db sg n world =
      ⟨none, ⟨sg.DB, sg.Config, mapSet sg.createdSequences n true⟩, world1,
        [DBCall.Exec (createQuery n) none]⟩ := by
  simp [ensureSequenceExists, h, hexec]

theorem ensure_DB {H σ : Type} (db : Database H σ) (sg : SequenceGenerator H) (n : String)
    (world : σ) : (ensureSequenceExists db sg n world).sg.DB = sg.DB := by
  by_cases hm : mapGet sg.createdSequences n = true
  · rw [ensure_fast db sg n world hm]
  · have hm0 : mapGet sg.createdSequences n = false := by simpa using hm
    rcases hx : db.Exec sg.DB (createQuery n) world with ⟨err, world1⟩
    cases err with
    | some e => rw [ensure_slow_fail db sg n world world1 e hm0 hx]
    | none => rw [ensure_slow_ok db sg n world world1 hm0 hx]

theorem ensure_Config {H σ : Type} (db : Database H σ) (sg : SequenceGenerator H) (n : String)
    (world : σ) : (ensureSequenceExists db sg n world).sg.Config = sg.Config := by
  by_cases hm : mapGet sg.createdSequences n = true
  · rw [ensure_fast db sg n world hm]
  · have hm0 : mapGet sg.createdSequences n = false := by simpa using hm
    rcases hx : db.Exec sg.DB (createQuery n) world with ⟨err, world1⟩
    cases err with
    | some e => rw [ensure_slow_fail db sg n world world1 e hm0 hx]
    | none => rw [ensure_slow_ok db sg n world world1 hm0 hx]

theorem ensure_ok_marked {H σ : Type} (db : Database H σ) (sg : SequenceGenerator H)
    (n : String) (world : σ) (h : (ensureSequenceExists db sg n world).ret = none) :
    mapGet (ensureSequenceExists db sg n world).sg.createdSequences n = true := by
  by_cases hm : mapGet sg.createdSequences n = true
  · rw [ensure_fast db sg n world hm]; exact hm
  · have hm0 : mapGet sg.createdSequences n = false := by simpa using hm
    rcases hx : db.Exec sg.DB (createQuery n) world with ⟨err, world1⟩
    cases err with
    | some e => rw [ensure_slow_fail db sg n world world1 e hm0 hx] at h; cases h
    | none =>
      rw [ensure_slow_ok db sg n world world1 hm0 hx]
      exact mapGet_mapSet_self _ _ _

theorem ensure_keeps_marked {H σ : Type} (db : Database H σ) (sg : SequenceGenerator H)
    (n m : String) (world : σ) (h : mapGet sg.createdSequences m = true) :
    mapGet (ensureSequenceExists db sg n world).sg.createdSequences m = true := by
  by_cases hm : mapGet sg.createdSequences n = true
  · rw [ensure_fast db sg n world hm]; exact h
  · have hm0 : mapGet sg.createdSequences n = false := by simpa using hm
    rcases hx : db.Exec sg.DB (createQuery n) world with ⟨err, world1⟩
    cases err with
    | some e => rw [ensure_slow_fail db sg n world world1 e hm0 hx]; exact h
    | none =>
      rw [ensure_slow_ok db sg n world world1 hm0 hx]
      by_cases hmn : m = n
      · subst hmn; exact mapGet_mapSet_self _ _ _
      · show mapGet (mapSet sg.createdSequences n true) m = true
        rw [mapGet_mapSet_ne _ _ _ _ hmn]; exact h

theorem GenerateID_unconfigured {H σ : Type} (db : Database H σ) (sg : SequenceGenerator H)
    (p : String) (world : σ) (h : sg.Config.lookup p = none) :
    GenerateID db sg p world =
      ⟨(⟨""⟩, some (GoError.errorString ("no configuration found for prefix " ++ p))),
        sg, world, []⟩ := by
  simp [GenerateID, h]

theorem GenerateID_ensure_fail {H σ : Type} (db : Database H σ) (sg : SequenceGenerator H)
    (p : String) (world : σ) (c : ConfigEntry) (err : GoError)
    (hcfg : sg.Config.lookup p = some c)
    (hens : (ensureSequenceExists db sg c.SeqName world).ret = some err) :
    GenerateID db sg p world =
      ⟨(⟨""⟩, some err), (ensureSequenceExists db sg c.SeqName world).sg,
        (ensureSequenceExists db sg c.SeqName world).world,
        (ensureSequenceExists db sg c.SeqName world).log⟩ := by
  simp [GenerateID, hcfg, hens]

theorem GenerateID_fetch_fail {H σ : Type} (db : Database H σ) (sg : SequenceGenerator H)
    (p : String) (world world2 : σ) (c : ConfigEntry) (err : GoError)
    (hcfg : sg.Config.lookup p = some c)
    (hens : (ensureSequenceExists db sg c.SeqName world).ret = none)
    (hfetch : db.RawScan sg.DB nextvalQuery c.SeqName
      (ensureSequenceExists db sg c.SeqName world).world = (ScanResult.failure err, world2)) :
    GenerateID db sg p world =
      ⟨(⟨""⟩, some (GoError.wrapError ("failed to generate next ID: " ++ err.Error) err)),
        (ensureSequenceExists db sg c.SeqName world).sg, world2,
        (ensureSequenceExists db sg c.SeqName world).log
          ++ [DBCall.RawScan nextvalQuery c.SeqName (ScanResult.failure err)]⟩ := by
  simp [GenerateID, hcfg, hens, ensure_DB, hfetch]

theorem GenerateID_fetch_ok {H σ : Type} (db : Database H σ) (sg : SequenceGenerator H)
    (p : String) (world world2 : σ) (c : ConfigEntry) (v : Int)
    (hcfg : sg.Config.lookup p = some c)
    (hens : (ensureSequenceExists db sg c.SeqName world).ret = none)
    (hfetch : db.RawScan sg.DB nextvalQuery c.SeqName
      (ensureSequenceExists db sg c.SeqName world).world = (ScanResult.value v, world2)) :
    GenerateID db sg p world =
      ⟨(⟨Sprintf p c.Length v⟩, none),
        (ensureSequenceExists db sg c.SeqName world).sg, world2,
        (ensureSequenceExists db sg c.SeqName world).log
          ++ [DBCall.RawScan nextvalQuery c.SeqName (ScanResult.value v)]⟩ := by
  simp [GenerateID, hcfg, hens, ensure_DB, hfetch]


/-! ## Formatting of a fetched value -/

/-- Zero padding within the widths `fmt` accepts: for a configured prefix `p` with
width `1 ≤ w ≤ 1000000`, when the ensure-counter step succeeds and the fetch
returns `v ≥ 0`, `GenerateID` returns no error and the identifier is `p` followed
by `max 0 (w - len)` zeros and the decimal numeral of `v`; that remainder is made
of digits only and its length is `max w len`. -/
theorem GenerateID_zero_padded {H σ : Type} (db : Database H σ) (sg : SequenceGenerator H)
    (world world2 : σ) (p n : String) (w v : Int)
    (hcfg : sg.Config.lookup p = some ⟨w, n⟩)
    (hw1 : 1 ≤ w) (hw2 : w ≤ 1000000)
    (hens : (ensureSequenceExists db sg n world).ret = none)
    (hfetch : db.RawScan sg.DB nextvalQuery n (ensureSequenceExists db sg n world).world
      = (ScanResult.value v, world2))
    (hv : 0 ≤ v) :
    (GenerateID db sg p world).ret = (⟨p ++ zeroPadded w.toNat v.toNat⟩, none) ∧
      (∀ c ∈ (zeroPadded w.toNat v.toNat).data, c.isDigit = true) ∧
      (zeroPadded w.toNat v.toNat).length = max w.toNat (Nat.repr v.toNat).length := by
  refine ⟨?_, zeroPadded_digits _ _, zeroPadded_length _ _⟩
  rw [GenerateID_fetch_ok db sg p world world2 ⟨w, n⟩ v hcfg hens hfetch]
  show (SSID.mk (Sprintf p w v), (none : Option GoError)) = _
  rw [Sprintf_zeroPadded p w v (by omega) hw2 hv]

theorem GenerateID_zero_padded_witness :
    (GenerateID seqDB sgORD "ORD" []).ret
        = (⟨"ORD" ++ zeroPadded (4 : Int).toNat (1 : Int).toNat⟩, none) ∧
      (∀ c ∈ (zeroPadded (4 : Int).toNat (1 : Int).toNat).data, c.isDigit = true) ∧
      (zeroPadded (4 : Int).toNat (1 : Int).toNat).length
        = max (4 : Int).toNat (Nat.repr (1 : Int).toNat).length :=
  GenerateID_zero_padded seqDB sgORD [] [(createQuery "ord_seq", 1)] "ORD" "ord_seq" 4 1
    (by decide) (by decide) (by decide) (by decide) (by decide) (by decide)

/-- C1, the code at the failing input: the source comments the formatting line
with `Pad the sequence value with leading zeros`, yet with the configured width
1000001 and the fetched value 150 (every hypothesis of the claim holds)
`GenerateID` returns `X%!(BADWIDTH)150` with a nil error, which is not `X`
followed by 999998 zeros and `150`. -/
theorem wide_width_not_zero_padded :
    sgWide.Config.lookup "X" = some ⟨1000001, "x_seq"⟩ ∧
      (1 : Int) ≤ 1000001 ∧
      (ensureSequenceExists (constDB none (ScanResult.value 150)) sgWide "x_seq" ()).ret = none ∧
      (constDB none (ScanResult.value 150)).RawScan sgWide.DB nextvalQuery "x_seq"
          (ensureSequenceExists (constDB none (ScanResult.value 150)) sgWide "x_seq" ()).world
        = (ScanResult.value 150, ()) ∧
      (GenerateID (constDB none (ScanResult.value 150)) sgWide "X" ()).ret
        = (⟨"X%!(BADWIDTH)150"⟩, none) ∧
      (GenerateID (constDB none (ScanResult.value 150)) sgWide "X" ()).ret
        ≠ (⟨"X" ++ zeroPadded (1000001 : Int).toNat (150 : Int).toNat⟩, none) := by
  have hret : (GenerateID (constDB none (ScanResult.value 150)) sgWide "X" ()).ret
      = (⟨"X%!(BADWIDTH)150"⟩, none) := by decide
  refine ⟨by decide, by decide, by decide, by decide, hret, ?_⟩
  rw [hret]
  intro h
  have hlen := congrArg (fun r : SSID × Option GoError => r.1.ID.length) h
  simp only [String.length_append, zeroPadded_length] at hlen
  revert hlen
  decide

/-- No truncation for widths that are not negative: for a configured prefix with
width `w ≥ 0` and a fetched `int64` value `v ≥ 0` whose decimal numeral has more
than `w` digits, `GenerateID` returns no error and the identifier is the prefix
followed by the whole numeral of `v`. -/
theorem GenerateID_no_truncation {H σ : Type} (db : Database H σ) (sg : SequenceGenerator H)
    (world world2 : σ) (p n : String) (w v : Int)
    (hcfg : sg.Config.lookup p = some ⟨w, n⟩)
    (hw : 0 ≤ w)
    (hens : (ensureSequenceExists db sg n world).ret = none)
    (hfetch : db.RawScan sg.DB nextvalQuery n (ensureSequenceExists db sg n world).world
      = (ScanResult.value v, world2))
    (hv : 0 ≤ v) (hv64 : v < 2 ^ 63)
    (hlong : w < ((Nat.repr v.toNat).length : Int)) :
    (GenerateID db sg p world).ret = (⟨p ++ Nat.repr v.toNat⟩, none) := by
  have h19 : (Nat.repr v.toNat).length ≤ 19 :=
    Nat.repr_length v.toNat 19 (by decide) (by
      have : v.toNat < 2 ^ 63 := by omega
      exact lt_of_lt_of_le this (by norm_num))
  rw [GenerateID_fetch_ok db sg p world world2 ⟨w, n⟩ v hcfg hens hfetch]
  show (SSID.mk (Sprintf p w v), (none : Option GoError)) = _
  rw [Sprintf_zeroPadded p w v hw (by omega) hv, zeroPadded_short _ _ (by omega)]

theorem GenerateID_no_truncation_witness :
    (GenerateID (constDB none (ScanResult.value 150)) sgX "X" ()).ret = (⟨"X150"⟩, none) :=
  GenerateID_no_truncation (constDB none (ScanResult.value 150)) sgX () () "X" "x_seq" 2 150
    (by decide) (by decide) (by decide) (by decide) (by decide) (by decide) (by decide)

/-- C2, the code at the failing input: with the configured width -4 and the
fetched value 7, whose numeral has more digits than the width, every hypothesis
of the claim holds and `GenerateID` returns `X7` followed by three blanks with a
nil error, not `X7`: `fmt` reads the negative width as left-justification and
pads on the right with blanks, where the source comment announces leading
zeros. -/
theorem negative_width_pads_with_blanks :
    sgNeg.Config.lookup "X" = some ⟨-4, "x_seq"⟩ ∧
      (ensureSequenceExists (constDB none (ScanResult.value 7)) sgNeg "x_seq" ()).ret = none ∧
      (constDB none (ScanResult.value 7)).RawScan sgNeg.DB nextvalQuery "x_seq"
          (ensureSequenceExists (constDB none (ScanResult.value 7)) sgNeg "x_seq" ()).world
        = (ScanResult.value 7, ()) ∧
      (0 : Int) ≤ 7 ∧ (7 : Int) < 2 ^ 63 ∧
      (-4 : Int) < ((Nat.repr (7 : Int).toNat).length : Int) ∧
      (GenerateID (constDB none (ScanResult.value 7)) sgNeg "X" ()).ret
        = (⟨"X7   "⟩, none) ∧
      (GenerateID (constDB none (ScanResult.value 7)) sgNeg "X" ()).ret
        ≠ (⟨"X" ++ Nat.repr (7 : Int).toNat⟩, none) := by
  refine ⟨by decide, by decide, by decide, by decide, by decide, by decide, by decide,
    by decide⟩

/-! ## Unconfigured prefix -/

/-- C3: for a prefix that is not a key of the configuration, `GenerateID` returns
the empty identifier with an error whose message is
`no configuration found for prefix ` followed by the prefix, issues no database
call, and leaves the generator (so its existence cache) and the server unchanged. -/
theorem GenerateID_unconfigured_fails {H σ : Type} (db : Database H σ)
    (sg : SequenceGenerator H) (p : String) (world : σ)
    (h : sg.Config.lookup p = none) :
    (GenerateID db sg p world).ret
        = (⟨""⟩, some (GoError.errorString ("no configuration found for prefix " ++ p))) ∧
      (∃ err, (GenerateID db sg p world).ret.2 = some err ∧
        err.Error = "no configuration found for prefix " ++ p ∧ err.Unwrap = none) ∧
      (GenerateID db sg p world).log = [] ∧
      (GenerateID db sg p world).sg.createdSequences = sg.createdSequences ∧
      (GenerateID db sg p world).sg = sg ∧
      (GenerateID db sg p world).world = world := by
  rw [GenerateID_unconfigured db sg p world h]
  exact ⟨rfl, ⟨_, rfl, rfl, rfl⟩, rfl, rfl, rfl, rfl⟩

theorem GenerateID_unconfigured_fails_witness :
    (GenerateID seqDB sgORD "UNKNOWN" []).ret
      = (⟨""⟩, some (GoError.errorString ("no configuration found for prefix " ++ "UNKNOWN"))) :=
  (GenerateID_unconfigured_fails seqDB sgORD "UNKNOWN" [] (by decide)).1


/-! ## Creation statements over a run -/

theorem execCount_append_fetch (l : List DBCall) (sql arg : String) (res : ScanResult) :
    execCount (l ++ [DBCall.RawScan sql arg res]) = execCount l := by
  induction l with
  | nil => rfl
  | cons c l ih => cases c <;> simp [execCount, ih]

theorem execFailCount_append_fetch (l : List DBCall) (sql arg : String) (res : ScanResult) :
    execFailCount (l ++ [DBCall.RawScan sql arg res]) = execFailCount l := by
  induction l with
  | nil => rfl
  | cons c l ih =>
    cases c with
    | Exec q err => cases err <;> simp [execFailCount, ih]
    | RawScan a b r => simp [execFailCount, ih]

/-- A call for a configured prefix leaves the generator as the ensure-counter step
left it, and its log is that of the step, followed by one fetch exactly when the
step succeeded. -/
theorem GenerateID_configured {H σ : Type} (db : Database H σ) (sg : SequenceGenerator H)
    (p : String) (world : σ) (c : ConfigEntry) (hcfg : sg.Config.lookup p = some c) :
    (GenerateID db sg p world).sg = (ensureSequenceExists db sg c.SeqName world).sg ∧
      (((ensureSequenceExists db sg c.SeqName world).ret ≠ none ∧
          (GenerateID db sg p world).log = (ensureSequenceExists db sg c.SeqName world).log) ∨
        ((ensureSequenceExists db sg c.SeqName world).ret = none ∧
          ∃ res, (GenerateID db sg p world).log
            = (ensureSequenceExists db sg c.SeqName world).log
              ++ [DBCall.RawScan nextvalQuery c.SeqName res])) := by
  rcases hens : (ensureSequenceExists db sg c.SeqName world).ret with _ | err
  · rcases hf : db.RawScan sg.DB nextvalQuery c.SeqName
        (ensureSequenceExists db sg c.SeqName world).world with ⟨res, world2⟩
    cases res with
    | value v =>
      rw [GenerateID_fetch_ok db sg p world world2 c v hcfg hens hf]
      exact ⟨rfl, Or.inr ⟨rfl, _, rfl⟩⟩
    | failure e =>
      rw [GenerateID_fetch_fail db sg p world world2 c e hcfg hens hf]
      exact ⟨rfl, Or.inr ⟨rfl, _, rfl⟩⟩
  · rw [GenerateID_ensure_fail db sg p world c err hcfg hens]
    exact ⟨rfl, Or.inl ⟨by simp, rfl⟩⟩

theorem GenerateID_Config {H σ : Type} (db : Database H σ) (sg : SequenceGenerator H)
    (p : String) (world : σ) : (GenerateID db sg p world).sg.Config = sg.Config := by
  rcases hcfg : sg.Config.lookup p with _ | c
  · rw [GenerateID_unconfigured db sg p world hcfg]
  · rw [(GenerateID_configured db sg p world c hcfg).1, ensure_Config]

theorem GenerateID_keeps_marked {H σ : Type} (db : Database H σ) (sg : SequenceGenerator H)
    (p m : String) (world : σ) (h : mapGet sg.createdSequences m = true) :
    mapGet (GenerateID db sg p world).sg.createdSequences m = true := by
  rcases hcfg : sg.Config.lookup p with _ | c
  · rw [GenerateID_unconfigured db sg p world hcfg]; exact h
  · rw [(GenerateID_configured db sg p world c hcfg).1]
    exact ensure_keeps_marked db sg c.SeqName m world h

/-- Counts of the ensure-counter step: nothing is issued when the name is marked;
otherwise one statement is issued, and it either failed or left the name marked. -/
theorem ensure_counts {H σ : Type} (db : Database H σ) (sg : SequenceGenerator H)
    (n : String) (world : σ) :
    (mapGet sg.createdSequences n = true →
        execCount (ensureSequenceExists db sg n world).log = 0) ∧
      (execCount (ensureSequenceExists db sg n world).log
          = execFailCount (ensureSequenceExists db sg n world).log ∨
        (execCount (ensureSequenceExists db sg n world).log
            = execFailCount (ensureSequenceExists db sg n world).log + 1 ∧
          mapGet (ensureSequenceExists db sg n world).sg.createdSequences n = true)) := by
  by_cases hm : mapGet sg.createdSequences n = true
  · rw [ensure_fast db sg n world hm]
    exact ⟨fun _ => rfl, Or.inl rfl⟩
  · have hm0 : mapGet sg.createdSequences n = false := by simpa using hm
    rcases hx : db.Exec sg.DB (createQuery n) world with ⟨err, world1⟩
    cases err with
    | some e =>
      rw [ensure_slow_fail db sg n world world1 e hm0 hx]
      exact ⟨fun h => absurd h hm, Or.inl rfl⟩
    | none =>
      rw [ensure_slow_ok db sg n world world1 hm0 hx]
      exact ⟨fun h => absurd h hm, Or.inr ⟨rfl, mapGet_mapSet_self _ _ _⟩⟩

theorem GenerateID_counts {H σ : Type} (db : Database H σ) (sg : SequenceGenerator H)
    (p : String) (world : σ) (c : ConfigEntry) (hcfg : sg.Config.lookup p = some c) :
    (mapGet sg.createdSequences c.SeqName = true →
        execCount (GenerateID db sg p world).log = 0) ∧
      (execCount (GenerateID db sg p world).log
          = execFailCount (GenerateID db sg p world).log ∨
        (execCount (GenerateID db sg p world).log
            = execFailCount (GenerateID db sg p world).log + 1 ∧
          mapGet (GenerateID db sg p world).sg.createdSequences c.SeqName = true)) := by
  obtain ⟨hsg, hlog⟩ := GenerateID_configured db sg p world c hcfg
  have hc := ensure_counts db sg c.SeqName world
  rcases hlog with ⟨_, hl⟩ | ⟨_, res, hl⟩
  · rw [hl, hsg]; exact hc
  · rw [hl, hsg, execCount_append_fetch, execFailCount_append_fetch]; exact hc

theorem usesSeq_iff (cfg : PrefixConfig) (n p : String) :
    usesSeq cfg n p = true ↔ ∃ c, cfg.lookup p = some c ∧ c.SeqName = n := by
  unfold usesSeq
  split
  · next e he => simp [he]
  · next he => simp [he]

theorem runCalls_counts {H σ : Type} (db : Database H σ) (cfg : PrefixConfig) (n : String)
    (ps : List String) : ∀ (sg : SequenceGenerator H) (world : σ), sg.Config = cfg →
    creationsFor cfg n (runCalls db sg world ps)
        ≤ failedCreationsFor cfg n (runCalls db sg world ps) + 1 ∧
      (mapGet sg.createdSequences n = true →
        creationsFor cfg n (runCalls db sg world ps) = 0) := by
  induction ps with
  | nil => intro sg world _; exact ⟨Nat.zero_le _, fun _ => rfl⟩
  | cons p ps ih =>
    intro sg world hsg
    have hcfg1 : (GenerateID db sg p world).sg.Config = cfg := by
      rw [GenerateID_Config, hsg]
    obtain ⟨ih1, ih2⟩ := ih (GenerateID db sg p world).sg (GenerateID db sg p world).world hcfg1
    simp only [runCalls, creationsFor, failedCreationsFor]
    by_cases hu : usesSeq cfg n p = true
    · obtain ⟨c, hc, hcn⟩ := (usesSeq_iff cfg n p).mp hu
      rw [← hsg] at hc
      obtain ⟨k1, k2⟩ := GenerateID_counts db sg p world c hc
      rw [hcn] at k1 k2
      simp only [hu, if_true]
      constructor
      · rcases k2 with k2 | ⟨k2, k3⟩
        · omega
        · have := ih2 k3
          omega
      · intro hm
        have h0 := k1 hm
        have := ih2 (GenerateID_keeps_marked db sg p n world hm)
        omega
    · have hu0 : usesSeq cfg n p = false := by simpa using hu
      simp only [hu0, Bool.false_eq_true, if_false, Nat.zero_add]
      exact ⟨ih1, fun hm => ih2 (GenerateID_keeps_marked db sg p n world hm)⟩

/-- C4 as stated fails: when the creation statement fails it is issued again by
the next call; two calls for `ORD` against a database that refuses every statement
issue two creation statements for `ord_seq`. -/
theorem creation_issued_twice_after_failure :
    creationsFor sgORD.Config "ord_seq"
        (runCalls (constDB (some (GoError.errorString "connection refused")) (ScanResult.value 1))
          sgORD () ["ORD", "ORD"]) = 2 ∧
      ¬ creationsFor sgORD.Config "ord_seq"
        (runCalls (constDB (some (GoError.errorString "connection refused")) (ScanResult.value 1))
          sgORD () ["ORD", "ORD"]) ≤ 1 := by
  constructor <;> decide

/-- C4, as amended: over every finite sequence of `GenerateID` calls on a
generator, and for every counter name `n`, the number of creation statements
issued for `n` is at most one more than the number of them that failed; so at
most one succeeds, and at most one is issued when none fails. -/
theorem creations_le_failures_succ {H σ : Type} (db : Database H σ)
    (sg : SequenceGenerator H) (world : σ) (ps : List String) (n : String) :
    creationsFor sg.Config n (runCalls db sg world ps)
      ≤ failedCreationsFor sg.Config n (runCalls db sg world ps) + 1 :=
  (runCalls_counts db sg.Config n ps sg world rfl).1


/-! ## The existence cache after a successful creation -/

theorem ensure_log_success {H σ : Type} (db : Database H σ) (sg : SequenceGenerator H)
    (n q : String) (world : σ)
    (h : DBCall.Exec q none ∈ (ensureSequenceExists db sg n world).log) :
    mapGet (ensureSequenceExists db sg n world).sg.createdSequences n = true := by
  by_cases hm : mapGet sg.createdSequences n = true
  · rw [ensure_fast db sg n world hm]; exact hm
  · have hm0 : mapGet sg.createdSequences n = false := by simpa using hm
    rcases hx : db.Exec sg.DB (createQuery n) world with ⟨err, world1⟩
    cases err with
    | some e =>
      rw [ensure_slow_fail db sg n world world1 e hm0 hx] at h
      simp at h
    | none =>
      rw [ensure_slow_ok db sg n world world1 hm0 hx]
      exact mapGet_mapSet_self _ _ _

theorem GenerateID_marked_log {H σ : Type} (db : Database H σ) (sg : SequenceGenerator H)
    (p : String) (world : σ) (c : ConfigEntry) (hcfg : sg.Config.lookup p = some c)
    (hm : mapGet sg.createdSequences c.SeqName = true) :
    ∃ res, (GenerateID db sg p world).log = [DBCall.RawScan nextvalQuery c.SeqName res] := by
  obtain ⟨_, hlog⟩ := GenerateID_configured db sg p world c hcfg
  rw [ensure_fast db sg c.SeqName world hm] at hlog
  rcases hlog with ⟨hne, _⟩ | ⟨_, res, hl⟩
  · exact absurd rfl hne
  · exact ⟨res, by simpa using hl⟩

theorem runCalls_marked {H σ : Type} (db : Database H σ) (cfg : PrefixConfig) (n : String)
    (ps : List String) : ∀ (sg : SequenceGenerator H) (world : σ), sg.Config = cfg →
    mapGet sg.createdSequences n = true →
    ∀ r ∈ runCalls db sg world ps,
      mapGet r.2.sg.createdSequences n = true ∧
        (usesSeq cfg n r.1 = true →
          ∃ res, r.2.log = [DBCall.RawScan nextvalQuery n res]) := by
  induction ps with
  | nil => intro sg world _ _ r hr; simp [runCalls] at hr
  | cons p ps ih =>
    intro sg world hsg hm r hr
    simp only [runCalls, List.mem_cons] at hr
    rcases hr with hr | hr
    · subst hr
      refine ⟨GenerateID_keeps_marked db sg p n world hm, fun hu => ?_⟩
      obtain ⟨c, hc, hcn⟩ := (usesSeq_iff cfg n p).mp hu
      rw [← hsg] at hc
      rw [← hcn] at hm ⊢
      exact GenerateID_marked_log db sg p world c hc hm
    · exact ih (GenerateID db sg p world).sg (GenerateID db sg p world).world
        (by rw [GenerateID_Config, hsg]) (GenerateID_keeps_marked db sg p n world hm) r hr

/-- C5: when a call for a prefix configured with counter name `n` has issued a
creation statement that succeeded, `n` is marked in the existence cache after that
call, stays marked after every later `GenerateID` call (any prefix, any outcome,
from any server state), and every later call whose prefix is configured with `n`
issues exactly one database call, a next-value fetch for `n`. -/
theorem created_stays_marked {H σ : Type} (db : Database H σ) (sg : SequenceGenerator H)
    (world world1 : σ) (p n : String) (w : Int) (ps : List String)
    (hcfg : sg.Config.lookup p = some ⟨w, n⟩)
    (hok : DBCall.Exec (createQuery n) none ∈ (GenerateID db sg p world).log) :
    mapGet (GenerateID db sg p world).sg.createdSequences n = true ∧
      ∀ r ∈ runCalls db (GenerateID db sg p world).sg world1 ps,
        mapGet r.2.sg.createdSequences n = true ∧
          (usesSeq sg.Config n r.1 = true →
            ∃ res, r.2.log = [DBCall.RawScan nextvalQuery n res]) := by
  have hm : mapGet (GenerateID db sg p world).sg.createdSequences n = true := by
    obtain ⟨hsg, hlog⟩ := GenerateID_configured db sg p world ⟨w, n⟩ hcfg
    rw [hsg]
    rcases hlog with ⟨_, hl⟩ | ⟨_, res, hl⟩
    · rw [hl] at hok
      exact ensure_log_success db sg n _ world hok
    · rw [hl] at hok
      rcases List.mem_append.mp hok with h | h
      · exact ensure_log_success db sg n _ world h
      · simp at h
  exact ⟨hm, runCalls_marked db sg.Config n ps _ world1 (GenerateID_Config db sg p world) hm⟩

theorem created_stays_marked_witness :
    mapGet (GenerateID seqDB sgORD "ORD" []).sg.createdSequences "ord_seq" = true ∧
      ∀ r ∈ runCalls seqDB (GenerateID seqDB sgORD "ORD" []).sg
          [(createQuery "ord_seq", 1)] ["ORD", "NONE", "ORD"],
        mapGet r.2.sg.createdSequences "ord_seq" = true ∧
          (usesSeq sgORD.Config "ord_seq" r.1 = true →
            ∃ res, r.2.log = [DBCall.RawScan nextvalQuery "ord_seq" res]) :=
  created_stays_marked seqDB sgORD [] [(createQuery "ord_seq", 1)] "ORD" "ord_seq" 4
    ["ORD", "NONE", "ORD"] (by decide) (by decide)

/-! ## Failures of the database -/

theorem ensure_fetchCount {H σ : Type} (db : Database H σ) (sg : SequenceGenerator H)
    (n : String) (world : σ) : fetchCount (ensureSequenceExists db sg n world).log = 0 := by
  by_cases hm : mapGet sg.createdSequences n = true
  · rw [ensure_fast db sg n world hm]; rfl
  · have hm0 : mapGet sg.createdSequences n = false := by simpa using hm
    rcases hx : db.Exec sg.DB (createQuery n) world with ⟨err, world1⟩
    cases err with
    | some e => rw [ensure_slow_fail db sg n world world1 e hm0 hx]; rfl
    | none => rw [ensure_slow_ok db sg n world world1 hm0 hx]; rfl

theorem fetchCount_append_fetch (l : List DBCall) (sql arg : String) (res : ScanResult) :
    fetchCount (l ++ [DBCall.RawScan sql arg res]) = fetchCount l + 1 := by
  induction l with
  | nil => rfl
  | cons c l ih => cases c <;> simp [fetchCount, ih]

/-- C6: for a configured prefix `p` whose counter name `n` is unmarked, when the
creation statement fails with cause `e`, `GenerateID` returns the empty identifier
and an error that wraps `e` and whose message is `failed to create sequence `
followed by `n` (then `: ` and the message of `e`); it issues the creation
statement and no fetch; the generator is unchanged, so `n` is still unmarked; and
the next `GenerateID(p)`, from any server state, issues the creation statement for
`n` again, first. -/
theorem creation_failure_retried {H σ : Type} (db : Database H σ) (sg : SequenceGenerator H)
    (world world1 : σ) (p n : String) (w : Int) (e : GoError)
    (hcfg : sg.Config.lookup p = some ⟨w, n⟩)
    (hm : mapGet sg.createdSequences n = false)
    (hexec : db.Exec sg.DB (createQuery n) world = (some e, world1)) :
    (GenerateID db sg p world).ret
        = (⟨""⟩, some (GoError.wrapError
            ("failed to create sequence " ++ n ++ ": " ++ e.Error) e)) ∧
      (∃ err, (GenerateID db sg p world).ret.2 = some err ∧ err.Unwrap = some e ∧
        err.Error = "failed to create sequence " ++ n ++ (": " ++ e.Error)) ∧
      (GenerateID db sg p world).log = [DBCall.Exec (createQuery n) (some e)] ∧
      fetchCount (GenerateID db sg p world).log = 0 ∧
      (GenerateID db sg p world).sg.createdSequences = sg.createdSequences ∧
      mapGet (GenerateID db sg p world).sg.createdSequences n = false ∧
      ∀ world2 : σ, ∃ err rest,
        (GenerateID db (GenerateID db sg p world).sg p world2).log
          = DBCall.Exec (createQuery n) err :: rest := by
  have hens := ensure_slow_fail db sg n world world1 e hm hexec
  have hG := GenerateID_ensure_fail db sg p world ⟨w, n⟩ _ hcfg (by rw [hens])
  simp only [hens] at hG
  have hsg : (GenerateID db sg p world).sg = sg := by rw [hG]
  refine ⟨by rw [hG], ⟨GoError.wrapError ("failed to create sequence " ++ n ++ ": " ++ e.Error) e,
      by rw [hG], rfl, ?_⟩, by rw [hG], by rw [hG]; rfl,
    by rw [hsg], by rw [hsg]; exact hm, ?_⟩
  · simp [GoError.Error, String.append_assoc]
  · intro world2
    rw [hsg]
    obtain ⟨_, hlog⟩ := GenerateID_configured db sg p world2 ⟨w, n⟩ hcfg
    rcases hx : db.Exec sg.DB (createQuery n) world2 with ⟨err, world3⟩
    have hl : (ensureSequenceExists db sg n world2).log = [DBCall.Exec (createQuery n) err] := by
      cases err with
      | some e2 => rw [ensure_slow_fail db sg n world2 world3 e2 hm hx]
      | none => rw [ensure_slow_ok db sg n world2 world3 hm hx]
    rcases hlog with ⟨_, h⟩ | ⟨_, res, h⟩
    · exact ⟨err, [], by rw [h]; exact hl⟩
    · exact ⟨err, [DBCall.RawScan nextvalQuery n res], by rw [h]; simp only [hl]; rfl⟩

theorem creation_failure_retried_witness :
    (GenerateID (constDB (some (GoError.errorString "connection refused")) (ScanResult.value 1))
        sgORD "ORD" ()).ret
      = (⟨""⟩, some (GoError.wrapError
          ("failed to create sequence " ++ "ord_seq" ++ ": "
            ++ (GoError.errorString "connection refused").Error)
          (GoError.errorString "connection refused"))) :=
  (creation_failure_retried
    (constDB (some (GoError.errorString "connection refused")) (ScanResult.value 1))
    sgORD () () "ORD" "ord_seq" 4 (GoError.errorString "connection refused")
    (by decide) (by decide) (by decide)).1

/-- C7: for a configured prefix `p` with counter name `n`, when the ensure-counter
step succeeds and the fetch fails with cause `e`, `GenerateID` returns the empty
identifier and an error that wraps `e` and whose message begins with
`failed to generate next ID: `; its log holds exactly one fetch; and `n` is marked
in the existence cache. -/
theorem fetch_failure_reported {H σ : Type} (db : Database H σ) (sg : SequenceGenerator H)
    (world world2 : σ) (p n : String) (w : Int) (e : GoError)
    (hcfg : sg.Config.lookup p = some ⟨w, n⟩)
    (hens : (ensureSequenceExists db sg n world).ret = none)
    (hfetch : db.RawScan sg.DB nextvalQuery n (ensureSequenceExists db sg n world).world
      = (ScanResult.failure e, world2)) :
    (GenerateID db sg p world).ret
        = (⟨""⟩, some (GoError.wrapError ("failed to generate next ID: " ++ e.Error) e)) ∧
      (∃ err, (GenerateID db sg p world).ret.2 = some err ∧ err.Unwrap = some e ∧
        err.Error = "failed to generate next ID: " ++ e.Error) ∧
      (GenerateID db sg p world).ret.1 = ⟨""⟩ ∧
      (GenerateID db sg p world).log
        = (ensureSequenceExists db sg n world).log
          ++ [DBCall.RawScan nextvalQuery n (ScanResult.failure e)] ∧
      fetchCount (GenerateID db sg p world).log = 1 ∧
      mapGet (GenerateID db sg p world).sg.createdSequences n = true := by
  have hG := GenerateID_fetch_fail db sg p world world2 ⟨w, n⟩ e hcfg hens hfetch
  refine ⟨by rw [hG], ⟨GoError.wrapError ("failed to generate next ID: " ++ e.Error) e,
      by rw [hG], rfl, rfl⟩, by rw [hG], by rw [hG], ?_, ?_⟩
  · rw [hG]
    show fetchCount (_ ++ [_]) = 1
    rw [fetchCount_append_fetch, ensure_fetchCount]
  · rw [hG]
    exact ensure_ok_marked db sg n world hens

theorem fetch_failure_reported_witness :
    (GenerateID (constDB none (ScanResult.failure (GoError.errorString "connection lost")))
        sgORD "ORD" ()).ret
      = (⟨""⟩, some (GoError.wrapError
          ("failed to generate next ID: " ++ (GoError.errorString "connection lost").Error)
          (GoError.errorString "connection lost"))) :=
  (fetch_failure_reported
    (constDB none (ScanResult.failure (GoError.errorString "connection lost")))
    sgORD () () "ORD" "ord_seq" 4 (GoError.errorString "connection lost")
    (by decide) (by decide) (by decide)).1


/-! ## Successive calls against a database of counters -/

theorem zeroPadded_value (w v : Nat) : digitsValue (zeroPadded w v) = v := by
  unfold digitsValue
  rw [zeroPadded_data, List.reverse_append, List.reverse_replicate, digitsValueRev_append_zeros]
  exact fmtDigits_value v

theorem seqDB_fetch (n : String) (s : List (String × Int)) (c : Int)
    (h : s.lookup (createQuery n) = some c) :
    seqDB.RawScan () nextvalQuery n s
      = (ScanResult.value (c + 1),
          (createQuery n, c + 1) :: s.filter (fun e => e.1 != createQuery n)) := by
  simp [seqDB, h]

/-- A call for `p` when its counter name is marked and the counter's last value is
`c`: the identifier is built from `c + 1`, the generator is unchanged, and the
counter's last value becomes `c + 1`. -/
theorem seqDB_call_marked (sg : SequenceGenerator Unit) (s : List (String × Int))
    (p n : String) (w : Int) (c : Nat)
    (hcfg : sg.Config.lookup p = some ⟨w, n⟩) (hw0 : 0 ≤ w) (hw1 : w ≤ 1000000)
    (hm : mapGet sg.createdSequences n = true)
    (hs : s.lookup (createQuery n) = some (c : Int)) :
    (GenerateID seqDB sg p s).ret = (⟨p ++ zeroPadded w.toNat (c + 1)⟩, none) ∧
      (GenerateID seqDB sg p s).sg = sg ∧
      (GenerateID seqDB sg p s).world.lookup (createQuery n) = some ((c + 1 : Nat) : Int) := by
  have he := ensure_fast seqDB sg n s hm
  have hf : seqDB.RawScan sg.DB nextvalQuery n (ensureSequenceExists seqDB sg n s).world
      = (ScanResult.value ((c : Int) + 1),
          (createQuery n, (c : Int) + 1) :: s.filter (fun e => e.1 != createQuery n)) := by
    rw [he]; exact seqDB_fetch n s c hs
  rw [GenerateID_fetch_ok seqDB sg p s _ ⟨w, n⟩ _ hcfg (by rw [he]) hf, he]
  refine ⟨?_, rfl, ?_⟩
  · show (SSID.mk (Sprintf p w ((c : Int) + 1)), (none : Option GoError)) = _
    rw [Sprintf_zeroPadded p w _ hw0 hw1 (by omega)]
    have : ((c : Int) + 1).toNat = c + 1 := by omega
    rw [this]
  · simp [List.lookup]

theorem seqDB_run_marked (p n : String) (w : Int) (hw0 : 0 ≤ w) (hw1 : w ≤ 1000000)
    (k : Nat) : ∀ (sg : SequenceGenerator Unit) (s : List (String × Int)) (c : Nat),
    sg.Config.lookup p = some ⟨w, n⟩ → mapGet sg.createdSequences n = true →
    s.lookup (createQuery n) = some (c : Int) →
    (runCalls seqDB sg s (List.replicate k p)).map (fun r => r.2.ret)
      = (List.range k).map (fun j => (SSID.mk (p ++ zeroPadded w.toNat (c + 1 + j)), none)) := by
  induction k with
  | zero => intro sg s c _ _ _; rfl
  | succ k ih =>
    intro sg s c hcfg hm hs
    obtain ⟨h1, h2, h3⟩ := seqDB_call_marked sg s p n w c hcfg hw0 hw1 hm hs
    have hrec := ih (GenerateID seqDB sg p s).sg (GenerateID seqDB sg p s).world (c + 1)
      (by rw [h2]; exact hcfg) (by rw [h2]; exact hm) h3
    simp only [List.replicate_succ, runCalls, List.map_cons, h1, hrec, List.range_succ_eq_map,
      List.map_map]
    refine congrArg₂ _ rfl (List.map_congr_left ?_)
    intro j _
    simp only [Function.comp, Nat.succ_eq_add_one]
    have : c + 1 + 1 + j = c + 1 + (j + 1) := by omega
    rw [this]

/-- The first call on a fresh generator when the counter does not exist yet: the
counter is created, the identifier is built from 1, the name is marked and the
counter's last value is 1. -/
theorem seqDB_first_call (sg : SequenceGenerator Unit) (s : List (String × Int))
    (p n : String) (w : Int)
    (hcfg : sg.Config.lookup p = some ⟨w, n⟩) (hw0 : 0 ≤ w) (hw1 : w ≤ 1000000)
    (hm : mapGet sg.createdSequences n = false)
    (hs : s.lookup (createQuery n) = none) :
    (GenerateID seqDB sg p s).ret = (⟨p ++ zeroPadded w.toNat 1⟩, none) ∧
      (GenerateID seqDB sg p s).sg.Config = sg.Config ∧
      mapGet (GenerateID seqDB sg p s).sg.createdSequences n = true ∧
      (GenerateID seqDB sg p s).world.lookup (createQuery n) = some ((1 : Nat) : Int) := by
  have hx : seqDB.Exec sg.DB (createQuery n) s = (none, (createQuery n, 0) :: s) := by
    simp [seqDB, hs]
  have he := ensure_slow_ok seqDB sg n s _ hm hx
  have hf : seqDB.RawScan sg.DB nextvalQuery n (ensureSequenceExists seqDB sg n s).world
      = (ScanResult.value ((0 : Int) + 1), (createQuery n, (0 : Int) + 1)
          :: ((createQuery n, (0 : Int)) :: s).filter (fun e => e.1 != createQuery n)) := by
    rw [he]
    exact seqDB_fetch n _ 0 (by simp [List.lookup])
  rw [GenerateID_fetch_ok seqDB sg p s _ ⟨w, n⟩ _ hcfg (by rw [he]) hf, he]
  refine ⟨?_, rfl, mapGet_mapSet_self _ _ _, ?_⟩
  · show (SSID.mk (Sprintf p w ((0 : Int) + 1)), (none : Option GoError)) = _
    rw [Sprintf_zeroPadded p w _ hw0 hw1 (by omega)]
    rfl
  · simp [List.lookup]

/-- C8, the code at the failing input: with prefix `ORD` and width 1000001 on a
fresh generator and an empty database of counters, the first call returns
`ORD%!(BADWIDTH)1` with a nil error, not `ORD` followed by the numeral of 1
padded with zeros to the width as the source comment
`Pad the sequence value with leading zeros` announces. -/
theorem first_call_wide_width_not_padded :
    (runCalls seqDB sgORDWide [] ["ORD"]).map (fun r => r.2.ret)
        = [(⟨"ORD%!(BADWIDTH)1"⟩, none)] ∧
      (runCalls seqDB sgORDWide [] ["ORD"]).map (fun r => r.2.ret)
        ≠ [(⟨"ORD" ++ zeroPadded 1000001 1⟩, none)] := by
  have hret : (runCalls seqDB sgORDWide [] ["ORD"]).map (fun r => r.2.ret)
      = [(⟨"ORD%!(BADWIDTH)1"⟩, none)] := by decide
  refine ⟨hret, ?_⟩
  rw [hret]
  intro h
  have hlen := congrArg
    (fun l : List (SSID × Option GoError) => l.map (fun r => r.1.ID.length)) h
  simp only [List.map_cons, List.map_nil, String.length_append, zeroPadded_length] at hlen
  revert hlen
  decide

/-- Successive calls within the widths `fmt` accepts: against the database of
counters `seqDB` (a created counter starts at 1, every fetch returns the previous
value plus 1, nothing fails), for a
fresh generator in which `p` has width `0 ≤ w ≤ 1000000` and counter name `n`,
and a server on which the counter of `n` does not exist, `k` successive calls
`GenerateID(p)` return, in order, `p` followed by the numeral of `1, 2, ..., k`
padded with zeros to `w`, without error; the numeric values of these suffixes
are strictly increasing. -/
theorem successive_calls_count_up (sg : SequenceGenerator Unit) (s : List (String × Int))
    (p n : String) (w : Int) (k : Nat)
    (hcfg : sg.Config.lookup p = some ⟨w, n⟩) (hw0 : 0 ≤ w) (hw1 : w ≤ 1000000)
    (hfresh : sg.createdSequences = [])
    (hs : s.lookup (createQuery n) = none) :
    (runCalls seqDB sg s (List.replicate k p)).map (fun r => r.2.ret)
        = (List.range k).map (fun j => (SSID.mk (p ++ zeroPadded w.toNat (j + 1)), none)) ∧
      ∀ i j : Nat, i < j →
        digitsValue (zeroPadded w.toNat (i + 1)) < digitsValue (zeroPadded w.toNat (j + 1)) := by
  constructor
  · cases k with
    | zero => rfl
    | succ k =>
      have hm : mapGet sg.createdSequences n = false := by rw [hfresh]; rfl
      obtain ⟨h1, h2, h3, h4⟩ := seqDB_first_call sg s p n w hcfg hw0 hw1 hm hs
      have hrec := seqDB_run_marked p n w hw0 hw1 k (GenerateID seqDB sg p s).sg
        (GenerateID seqDB sg p s).world 1 (by rw [h2]; exact hcfg) h3 h4
      simp only [List.replicate_succ, runCalls, List.map_cons, h1, hrec,
        List.range_succ_eq_map, List.map_map]
      refine congrArg₂ _ rfl (List.map_congr_left ?_)
      intro j _
      simp only [Function.comp, Nat.succ_eq_add_one]
      have : 1 + 1 + j = j + 1 + 1 := by omega
      rw [this]
  · intro i j hij
    rw [zeroPadded_value, zeroPadded_value]
    omega

theorem successive_calls_count_up_witness :
    (runCalls seqDB sgORD [] (List.replicate 2 "ORD")).map (fun r => r.2.ret)
      = [(⟨"ORD0001"⟩, none), (⟨"ORD0002"⟩, none)] :=
  (successive_calls_count_up sgORD [] "ORD" "ord_seq" 4 2
    (by decide) (by decide) (by decide) (by decide) (by decide)).1

/-! ## Distinct values give distinct identifiers -/

theorem string_append_left_cancel (s t u : String) (h : s ++ t = s ++ u) : t = u := by
  have hd := congrArg String.data h
  simp only [String.data_append] at hd
  exact String.ext (List.append_cancel_left hd)

theorem badWidth_nondigits : ∀ c ∈ badWidthString.data.reverse, c.isDigit = false := by
  decide

/-- Whatever the width, the characters that follow the prefix carry the value as
their decimal digits. -/
theorem Sprintf_value (s : String) (w v : Int) (hv : 0 ≤ v) :
    ∃ t : String, Sprintf s w v = s ++ t ∧ digitsValue t = v.toNat := by
  unfold Sprintf
  split
  · refine ⟨badWidthString ++ String.mk (fmtInteger (FmtFlags.mk 0 false false true) v),
      by rw [String.append_assoc], ?_⟩
    unfold digitsValue
    rw [String.data_append, List.reverse_append,
      digitsValueRev_append_nondigits _ _ badWidth_nondigits]
    exact fmtInteger_value (FmtFlags.mk 0 false false true) v hv
  · next f _ => exact ⟨String.mk (fmtInteger f v), rfl, fmtInteger_value f v hv⟩

theorem Sprintf_injective (s : String) (w a b : Int) (ha : 0 ≤ a) (hb : 0 ≤ b)
    (h : Sprintf s w a = Sprintf s w b) : a = b := by
  obtain ⟨t, ht, hta⟩ := Sprintf_value s w a ha
  obtain ⟨u, hu, hub⟩ := Sprintf_value s w b hb
  rw [ht, hu] at h
  have htu := string_append_left_cancel s t u h
  rw [htu, hub] at hta
  omega

/-- C10: for every prefix `p`, every width `w` and all fetched values `a ≠ b`,
both at least 0, the identifier `GenerateID(p)` returns when the fetch gives `a`
differs from the one it returns when the fetch gives `b` (whatever the generator
and server states of the two calls). -/
theorem distinct_values_distinct_identifiers {H σ : Type} (db : Database H σ)
    (sg1 sg2 : SequenceGenerator H) (s1 s2 t1 t2 : σ) (p n : String) (w a b : Int)
    (hcfg1 : sg1.Config.lookup p = some ⟨w, n⟩)
    (hcfg2 : sg2.Config.lookup p = some ⟨w, n⟩)
    (hens1 : (ensureSequenceExists db sg1 n s1).ret = none)
    (hens2 : (ensureSequenceExists db sg2 n s2).ret = none)
    (hfetch1 : db.RawScan sg1.DB nextvalQuery n (ensureSequenceExists db sg1 n s1).world
      = (ScanResult.value a, t1))
    (hfetch2 : db.RawScan sg2.DB nextvalQuery n (ensureSequenceExists db sg2 n s2).world
      = (ScanResult.value b, t2))
    (ha : 0 ≤ a) (hb : 0 ≤ b) (hab : a ≠ b) :
    (GenerateID db sg1 p s1).ret = (⟨Sprintf p w a⟩, none) ∧
      (GenerateID db sg2 p s2).ret = (⟨Sprintf p w b⟩, none) ∧
      (GenerateID db sg1 p s1).ret.1 ≠ (GenerateID db sg2 p s2).ret.1 := by
  rw [GenerateID_fetch_ok db sg1 p s1 t1 ⟨w, n⟩ a hcfg1 hens1 hfetch1,
    GenerateID_fetch_ok db sg2 p s2 t2 ⟨w, n⟩ b hcfg2 hens2 hfetch2]
  refine ⟨rfl, rfl, ?_⟩
  intro h
  exact hab (Sprintf_injective p w a b ha hb (congrArg SSID.ID h))

theorem distinct_values_distinct_identifiers_witness :
    (GenerateID seqDB sgORD "ORD" []).ret.1
      ≠ (GenerateID seqDB ⟨(), sgORD.Config, [("ord_seq", true)]⟩ "ORD"
          [(createQuery "ord_seq", 1)]).ret.1 :=
  (distinct_values_distinct_identifiers seqDB sgORD
    ⟨(), sgORD.Config, [("ord_seq", true)]⟩ [] [(createQuery "ord_seq", 1)]
    [(createQuery "ord_seq", 1)] [(createQuery "ord_seq", 2)] "ORD" "ord_seq" 4 1 2
    (by decide) (by decide) (by decide) (by decide) (by decide) (by decide)
    (by decide) (by decide) (by decide)).2.2


/-! ## Order of identifiers -/

theorem isDigit_bounds (c : Char) (h : c.isDigit = true) : 48 ≤ c.toNat ∧ c.toNat ≤ 57 := by
  simp only [Char.isDigit, Bool.and_eq_true, decide_eq_true_eq] at h
  have h1 := UInt32.le_def.mp h.1
  have h2 := UInt32.le_def.mp h.2
  rw [BitVec.le_def] at h1 h2
  exact ⟨h1, h2⟩

theorem char_lt_iff_toNat (c d : Char) : c < d ↔ c.toNat < d.toNat := by
  rw [Char.lt_def, UInt32.lt_def, BitVec.lt_def]
  rfl

theorem digitsValueRev_append_digits (l m : List Char) (h : ∀ c ∈ l, c.isDigit = true) :
    digitsValueRev (l ++ m) = digitsValueRev l + 10 ^ l.length * digitsValueRev m := by
  induction l with
  | nil => simp [digitsValueRev]
  | cons x l ih =>
    have hx : x.isDigit = true := h x (List.mem_cons_self _ _)
    have ih2 := ih (fun c hc => h c (List.mem_cons_of_mem _ hc))
    show digitsValueRev (x :: (l ++ m)) = _
    simp only [digitsValueRev, hx, if_true, ih2, List.length_cons, pow_succ]
    ring

theorem digitsValueRev_lt_pow (l : List Char) (h : ∀ c ∈ l, c.isDigit = true) :
    digitsValueRev l < 10 ^ l.length := by
  induction l with
  | nil => simp [digitsValueRev]
  | cons x l ih =>
    have hx : x.isDigit = true := h x (List.mem_cons_self _ _)
    have ih2 := ih (fun c hc => h c (List.mem_cons_of_mem _ hc))
    have hb := isDigit_bounds x hx
    simp only [digitsValueRev, hx, if_true, List.length_cons, pow_succ]
    omega

/-- Digit strings of equal length are ordered as their values are. -/
theorem lex_lt_of_value_lt : ∀ (x y : List Char), x.length = y.length →
    (∀ c ∈ x, c.isDigit = true) → (∀ c ∈ y, c.isDigit = true) →
    digitsValueRev x.reverse < digitsValueRev y.reverse → x < y := by
  intro x
  induction x with
  | nil =>
    intro y hl _ _ hv
    cases y with
    | nil => simp [digitsValueRev] at hv
    | cons d ys => simp at hl
  | cons c xs ih =>
    intro y hl hx hy hv
    cases y with
    | nil => simp at hl
    | cons d ys =>
      have hc : c.isDigit = true := hx c (List.mem_cons_self _ _)
      have hd : d.isDigit = true := hy d (List.mem_cons_self _ _)
      have hxs : ∀ e ∈ xs, e.isDigit = true := fun e he => hx e (List.mem_cons_of_mem _ he)
      have hys : ∀ e ∈ ys, e.isDigit = true := fun e he => hy e (List.mem_cons_of_mem _ he)
      have hxr : ∀ e ∈ xs.reverse, e.isDigit = true := fun e he => hxs e (List.mem_reverse.mp he)
      have hyr : ∀ e ∈ ys.reverse, e.isDigit = true := fun e he => hys e (List.mem_reverse.mp he)
      have hlen : xs.length = ys.length := by simpa using hl
      have bx := digitsValueRev_lt_pow xs.reverse hxr
      have by_ := digitsValueRev_lt_pow ys.reverse hyr
      rw [List.reverse_cons, List.reverse_cons, digitsValueRev_append_digits _ _ hxr,
        digitsValueRev_append_digits _ _ hyr] at hv
      simp only [digitsValueRev, hc, hd, if_true, List.length_reverse, Nat.mul_zero,
        Nat.add_zero] at hv bx by_
      rw [hlen] at hv bx
      have hcb := isDigit_bounds c hc
      have hdb := isDigit_bounds d hd
      rcases Nat.lt_trichotomy c.toNat d.toNat with hlt | heq | hgt
      · exact List.Lex.rel ((char_lt_iff_toNat c d).mpr hlt)
      · have hcd : c = d := by
          apply Char.ext
          apply UInt32.eq_of_val_eq
          apply Fin.ext
          exact heq
        subst hcd
        exact List.Lex.cons (ih ys hlen hxs hys (by omega))
      · exfalso
        have hm : 10 ^ ys.length * (d.toNat - 48 + 1) ≤ 10 ^ ys.length * (c.toNat - 48) :=
          Nat.mul_le_mul_left _ (by omega)
        rw [Nat.mul_add, Nat.mul_one] at hm
        omega

theorem fmtDigits_length_le (a w : Nat) (h : a < 10 ^ w) (hw : 0 < w) :
    (fmtDigits a).length ≤ w :=
  Nat.repr_length a w hw h

theorem lt_pow_of_fmtDigits_length (b : Nat) : b < 10 ^ (fmtDigits b).length := by
  have h := digitsValueRev_lt_pow (fmtDigits b).reverse
    (fun c hc => fmtDigits_isDigit b c (List.mem_reverse.mp hc))
  rw [fmtDigits_value, List.length_reverse] at h
  exact h

/-- Numerals that fit in the width are ordered, once padded, as their values are. -/
theorem zeroPadded_lt (w a b : Nat) (hab : a < b) (hfit : (Nat.repr b).length ≤ w) :
    zeroPadded w a < zeroPadded w b := by
  have hlb : (Nat.repr b).length = (fmtDigits b).length := rfl
  have hla : (Nat.repr a).length = (fmtDigits a).length := rfl
  have hb : b < 10 ^ w :=
    lt_of_lt_of_le (lt_pow_of_fmtDigits_length b)
      (Nat.pow_le_pow_right (by decide) (by omega))
  have hw : 0 < w := by
    rcases Nat.eq_zero_or_pos w with h0 | h0
    · subst h0; simp at hb; omega
    · exact h0
  have ha : (fmtDigits a).length ≤ w := fmtDigits_length_le a w (by omega) hw
  rw [String.lt_iff_toList_lt]
  apply lex_lt_of_value_lt
  · have h1 := zeroPadded_length w a
    have h2 := zeroPadded_length w b
    have e1 : (zeroPadded w a).data.length = max w (fmtDigits a).length := h1
    have e2 : (zeroPadded w b).data.length = max w (fmtDigits b).length := h2
    have hfit2 : (fmtDigits b).length ≤ w := hfit
    show (zeroPadded w a).data.length = (zeroPadded w b).data.length
    rw [e1, e2]
    omega
  · exact zeroPadded_digits w a
  · exact zeroPadded_digits w b
  · have h1 := zeroPadded_value w a
    have h2 := zeroPadded_value w b
    unfold digitsValue at h1 h2
    show digitsValueRev (zeroPadded w a).data.reverse < digitsValueRev (zeroPadded w b).data.reverse
    rw [h1, h2]
    exact hab

theorem string_append_lt (p x y : String) (h : x < y) : p ++ x < p ++ y := by
  rw [String.lt_iff_toList_lt] at h ⊢
  show (p ++ x).data < (p ++ y).data
  rw [String.data_append, String.data_append]
  exact List.Lex.append_left _ h _


/-- C11 as stated fails: with prefix `X`, width 2 and the values 99 < 100 the
identifiers are `X99` and `X100`, and `X99` is not below `X100` in the
lexicographic order (it is above it). -/
theorem identifiers_not_ordered_past_width :
    (GenerateID seqDB sgX "X" [(createQuery "x_seq", 98)]).ret = (⟨"X99"⟩, none) ∧
      (GenerateID seqDB sgX "X" [(createQuery "x_seq", 99)]).ret = (⟨"X100"⟩, none) ∧
      (1 : Int) ≤ 99 ∧ (99 : Int) < 100 ∧
      ¬ ((GenerateID seqDB sgX "X" [(createQuery "x_seq", 98)]).ret.1.ID
          < (GenerateID seqDB sgX "X" [(createQuery "x_seq", 99)]).ret.1.ID) ∧
      (GenerateID seqDB sgX "X" [(createQuery "x_seq", 99)]).ret.1.ID
          < (GenerateID seqDB sgX "X" [(createQuery "x_seq", 98)]).ret.1.ID := by
  have h1 : (GenerateID seqDB sgX "X" [(createQuery "x_seq", 98)]).ret = (⟨"X99"⟩, none) := by
    decide
  have h2 : (GenerateID seqDB sgX "X" [(createQuery "x_seq", 99)]).ret = (⟨"X100"⟩, none) := by
    decide
  refine ⟨h1, h2, by decide, by decide, ?_, ?_⟩
  · rw [h1, h2, String.lt_iff_toList_lt]
    decide
  · rw [h1, h2, String.lt_iff_toList_lt]
    decide

/-- C11, as amended: for a configured prefix `p` with width `w ≤ 1000000` and
fetched values `1 ≤ a < b` such that the decimal numeral of `b` has at most `w`
digits, the identifier `GenerateID(p)` returns for `a` is strictly below the one
it returns for `b` in the lexicographic order of strings. -/
theorem identifiers_ordered_within_width {H σ : Type} (db : Database H σ)
    (sg1 sg2 : SequenceGenerator H) (s1 s2 t1 t2 : σ) (p n : String) (w a b : Int)
    (hcfg1 : sg1.Config.lookup p = some ⟨w, n⟩)
    (hcfg2 : sg2.Config.lookup p = some ⟨w, n⟩)
    (hens1 : (ensureSequenceExists db sg1 n s1).ret = none)
    (hens2 : (ensureSequenceExists db sg2 n s2).ret = none)
    (hfetch1 : db.RawScan sg1.DB nextvalQuery n (ensureSequenceExists db sg1 n s1).world
      = (ScanResult.value a, t1))
    (hfetch2 : db.RawScan sg2.DB nextvalQuery n (ensureSequenceExists db sg2 n s2).world
      = (ScanResult.value b, t2))
    (hw : w ≤ 1000000) (ha : 1 ≤ a) (hab : a < b)
    (hfit : ((Nat.repr b.toNat).length : Int) ≤ w) :
    (GenerateID db sg1 p s1).ret.1.ID < (GenerateID db sg2 p s2).ret.1.ID := by
  rw [GenerateID_fetch_ok db sg1 p s1 t1 ⟨w, n⟩ a hcfg1 hens1 hfetch1,
    GenerateID_fetch_ok db sg2 p s2 t2 ⟨w, n⟩ b hcfg2 hens2 hfetch2]
  show Sprintf p w a < Sprintf p w b
  rw [Sprintf_zeroPadded p w a (by omega) hw (by omega),
    Sprintf_zeroPadded p w b (by omega) hw (by omega)]
  exact string_append_lt p _ _ (zeroPadded_lt w.toNat a.toNat b.toNat (by omega) (by omega))

theorem identifiers_ordered_within_width_witness :
    (GenerateID seqDB sgORD "ORD" []).ret.1.ID
      < (GenerateID seqDB ⟨(), sgORD.Config, [("ord_seq", true)]⟩ "ORD"
          [(createQuery "ord_seq", 1)]).ret.1.ID :=
  identifiers_ordered_within_width seqDB sgORD
    ⟨(), sgORD.Config, [("ord_seq", true)]⟩ [] [(createQuery "ord_seq", 1)]
    [(createQuery "ord_seq", 1)] [(createQuery "ord_seq", 2)] "ORD" "ord_seq" 4 1 2
    (by decide) (by decide) (by decide) (by decide) (by decide) (by decide)
    (by decide) (by decide) (by decide) (by decide)

/-! ## Identifiers of different prefixes -/

theorem Sprintf_begins (s : String) (w v : Int) : ∃ t : String, Sprintf s w v = s ++ t := by
  unfold Sprintf
  split
  · exact ⟨_, String.append_assoc _ _ _⟩
  · exact ⟨_, rfl⟩

theorem append_eq_append_cases : ∀ (p q t u : List Char), p ++ t = q ++ u →
    (∃ r, q = p ++ r) ∨ (∃ r, p = q ++ r) := by
  intro p
  induction p with
  | nil => intro q _ _ _; exact Or.inl ⟨q, rfl⟩
  | cons c p ih =>
    intro q t u h
    cases q with
    | nil => exact Or.inr ⟨c :: p, rfl⟩
    | cons d q =>
      simp only [List.cons_append, List.cons.injEq] at h
      obtain ⟨hcd, hrest⟩ := h
      subst hcd
      rcases ih q t u hrest with ⟨r, hr⟩ | ⟨r, hr⟩
      · exact Or.inl ⟨r, by rw [hr]; rfl⟩
      · exact Or.inr ⟨r, by rw [hr]; rfl⟩

/-- C12 as stated fails: with the distinct prefixes `A` and `A1`, both of width 1,
the value 11 for `A` and the value 1 for `A1` give the same identifier `A11`. -/
theorem identifiers_collide_across_prefixes :
    ("A" : String) ≠ "A1" ∧
      sgAA1.Config.lookup "A" = some ⟨1, "a_seq"⟩ ∧
      sgAA1.Config.lookup "A1" = some ⟨1, "b_seq"⟩ ∧
      (GenerateID seqDB sgAA1 "A"
          [(createQuery "a_seq", 10), (createQuery "b_seq", 0)]).log.getLast?
        = some (DBCall.RawScan nextvalQuery "a_seq" (ScanResult.value 11)) ∧
      (GenerateID seqDB sgAA1 "A1"
          [(createQuery "a_seq", 10), (createQuery "b_seq", 0)]).log.getLast?
        = some (DBCall.RawScan nextvalQuery "b_seq" (ScanResult.value 1)) ∧
      (GenerateID seqDB sgAA1 "A"
          [(createQuery "a_seq", 10), (createQuery "b_seq", 0)]).ret = (⟨"A11"⟩, none) ∧
      (GenerateID seqDB sgAA1 "A1"
          [(createQuery "a_seq", 10), (createQuery "b_seq", 0)]).ret = (⟨"A11"⟩, none) ∧
      (GenerateID seqDB sgAA1 "A"
          [(createQuery "a_seq", 10), (createQuery "b_seq", 0)]).ret.1
        = (GenerateID seqDB sgAA1 "A1"
          [(createQuery "a_seq", 10), (createQuery "b_seq", 0)]).ret.1 := by
  refine ⟨by decide, by decide, by decide, by decide, by decide, by decide, by decide,
    by decide⟩

/-- C12, as amended: for any two configured prefixes `p` and `q` neither of which
is an initial segment of the other (each with its own width and counter), and all
fetched values, the identifier `GenerateID(p)` returns differs from the one
`GenerateID(q)` returns. -/
theorem identifiers_distinct_across_prefixes {H σ : Type} (db : Database H σ)
    (sg1 sg2 : SequenceGenerator H) (s1 s2 t1 t2 : σ) (p q np nq : String)
    (wp wq a b : Int)
    (hcfgp : sg1.Config.lookup p = some ⟨wp, np⟩)
    (hcfgq : sg2.Config.lookup q = some ⟨wq, nq⟩)
    (hens1 : (ensureSequenceExists db sg1 np s1).ret = none)
    (hens2 : (ensureSequenceExists db sg2 nq s2).ret = none)
    (hfetch1 : db.RawScan sg1.DB nextvalQuery np (ensureSequenceExists db sg1 np s1).world
      = (ScanResult.value a, t1))
    (hfetch2 : db.RawScan sg2.DB nextvalQuery nq (ensureSequenceExists db sg2 nq s2).world
      = (ScanResult.value b, t2))
    (hpq : ∀ r : String, q ≠ p ++ r) (hqp : ∀ r : String, p ≠ q ++ r) :
    (GenerateID db sg1 p s1).ret.1 ≠ (GenerateID db sg2 q s2).ret.1 := by
  rw [GenerateID_fetch_ok db sg1 p s1 t1 ⟨wp, np⟩ a hcfgp hens1 hfetch1,
    GenerateID_fetch_ok db sg2 q s2 t2 ⟨wq, nq⟩ b hcfgq hens2 hfetch2]
  intro h
  have hid : Sprintf p wp a = Sprintf q wq b := congrArg SSID.ID h
  obtain ⟨t, ht⟩ := Sprintf_begins p wp a
  obtain ⟨u, hu⟩ := Sprintf_begins q wq b
  rw [ht, hu] at hid
  have hd := congrArg String.data hid
  simp only [String.data_append] at hd
  rcases append_eq_append_cases _ _ _ _ hd with ⟨r, hr⟩ | ⟨r, hr⟩
  · exact hpq (String.mk r) (String.ext (by rw [String.data_append]; exact hr))
  · exact hqp (String.mk r) (String.ext (by rw [String.data_append]; exact hr))

theorem identifiers_distinct_across_prefixes_witness :
    (GenerateID seqDB sgTwo "ORD" []).ret.1 ≠ (GenerateID seqDB sgTwo "INV" []).ret.1 :=
  identifiers_distinct_across_prefixes seqDB sgTwo sgTwo [] []
    [(createQuery "ord_seq", 1)] [(createQuery "inv_seq", 1)] "ORD" "INV" "ord_seq" "inv_seq"
    4 6 1 1 (by decide) (by decide) (by decide) (by decide) (by decide) (by decide)
    (by intro r h; have hd := congrArg String.data h; simp [String.data_append] at hd)
    (by intro r h; have hd := congrArg String.data h; simp [String.data_append] at hd)


/-! ## What the error messages name -/

theorem startsWithChars_append (n b : List Char) : startsWithChars (n ++ b) n = true := by
  induction n with
  | nil => cases b <;> rfl
  | cons c n ih => simp [startsWithChars, ih]

theorem containsChars_middle (a n b : List Char) : containsChars (a ++ (n ++ b)) n = true := by
  induction a with
  | nil =>
    cases h : n ++ b with
    | nil =>
      have hn : n = [] := (List.append_eq_nil.mp h).1
      subst hn
      rfl
    | cons c cs =>
      show (startsWithChars (c :: cs) n || containsChars cs n) = true
      rw [← h, startsWithChars_append]
      rfl
  | cons c a ih =>
    show (startsWithChars (c :: (a ++ (n ++ b))) n || containsChars (a ++ (n ++ b)) n) = true
    rw [ih]
    simp

theorem containsText_middle (a n b : String) : containsText (a ++ n ++ b) n = true := by
  unfold containsText
  rw [String.data_append, String.data_append, List.append_assoc]
  exact containsChars_middle _ _ _

theorem containsText_end (a n : String) : containsText (a ++ n) n = true := by
  have h := containsText_middle a n ""
  rw [String.append_empty] at h
  exact h

/-- C13, the code at the failing input: for prefix `ORD` with counter `ord_seq`,
when the fetch fails with cause `connection lost` the returned error reads
`failed to generate next ID: connection lost`; neither its text before the cause
nor its whole message contains `ORD` or `ord_seq`, whereas the errors of the two
other stages carry the prefix, respectively the counter name. -/
theorem fetch_error_names_no_counter :
    (GenerateID (constDB none (ScanResult.failure (GoError.errorString "connection lost")))
        sgORD "ORD" ()).ret.2
      = some (GoError.wrapError "failed to generate next ID: connection lost"
          (GoError.errorString "connection lost")) ∧
      containsText "failed to generate next ID: " "ORD" = false ∧
      containsText "failed to generate next ID: " "ord_seq" = false ∧
      containsText "failed to generate next ID: connection lost" "ORD" = false ∧
      containsText "failed to generate next ID: connection lost" "ord_seq" = false := by
  refine ⟨by decide, by decide, by decide, by decide, by decide⟩

/-- The errors of `GenerateID`, stage by stage: every error it returns is one of
three, told apart by the text that precedes the wrapped cause: for an unconfigured prefix the
message is `no configuration found for prefix ` followed by the prefix, and
contains the prefix; for a failed counter creation that text is
`failed to create sequence ` followed by the counter name and `: `, and contains
the counter name; for a failed fetch it is the fixed text
`failed to generate next ID: `. -/
theorem error_messages_by_stage {H σ : Type} (db : Database H σ) (sg : SequenceGenerator H)
    (p : String) (world : σ) (err : GoError)
    (herr : (GenerateID db sg p world).ret.2 = some err) :
    (sg.Config.lookup p = none ∧
        err = GoError.errorString ("no configuration found for prefix " ++ p) ∧
        containsText err.Error p = true) ∨
      (∃ c e, sg.Config.lookup p = some c ∧
        err = GoError.wrapError ("failed to create sequence " ++ c.SeqName ++ ": " ++ e.Error) e ∧
        containsText ("failed to create sequence " ++ c.SeqName ++ ": ") c.SeqName = true) ∨
      (∃ c e, sg.Config.lookup p = some c ∧
        err = GoError.wrapError ("failed to generate next ID: " ++ e.Error) e) := by
  rcases hcfg : sg.Config.lookup p with _ | c
  · rw [GenerateID_unconfigured db sg p world hcfg] at herr
    have he : err = GoError.errorString ("no configuration found for prefix " ++ p) := by
      simpa using herr.symm
    refine Or.inl ⟨rfl, he, ?_⟩
    rw [he]
    exact containsText_end _ _
  · rcases hens : (ensureSequenceExists db sg c.SeqName world).ret with _ | e1
    · rcases hf : db.RawScan sg.DB nextvalQuery c.SeqName
          (ensureSequenceExists db sg c.SeqName world).world with ⟨res, world2⟩
      cases res with
      | value v =>
        rw [GenerateID_fetch_ok db sg p world world2 c v hcfg hens hf] at herr
        simp at herr
      | failure e =>
        rw [GenerateID_fetch_fail db sg p world world2 c e hcfg hens hf] at herr
        exact Or.inr (Or.inr ⟨c, e, rfl, by simpa using herr.symm⟩)
    · rw [GenerateID_ensure_fail db sg p world c e1 hcfg hens] at herr
      have he : err = e1 := by simpa using herr.symm
      by_cases hm : mapGet sg.createdSequences c.SeqName = true
      · rw [ensure_fast db sg c.SeqName world hm] at hens
        simp at hens
      · have hm0 : mapGet sg.createdSequences c.SeqName = false := by simpa using hm
        rcases hx : db.Exec sg.DB (createQuery c.SeqName) world with ⟨r, world1⟩
        cases r with
        | none =>
          rw [ensure_slow_ok db sg c.SeqName world world1 hm0 hx] at hens
          simp at hens
        | some e =>
          rw [ensure_slow_fail db sg c.SeqName world world1 e hm0 hx] at hens
          refine Or.inr (Or.inl ⟨c, e, rfl, ?_, containsText_middle _ _ _⟩)
          rw [he]
          simpa using hens.symm

theorem error_messages_by_stage_witness :
    (sgORD.Config.lookup "UNKNOWN" = none ∧
        GoError.errorString "no configuration found for prefix UNKNOWN"
          = GoError.errorString ("no configuration found for prefix " ++ "UNKNOWN") ∧
        containsText
          (GoError.errorString "no configuration found for prefix UNKNOWN").Error "UNKNOWN"
          = true) ∨
      (∃ c e, sgORD.Config.lookup "UNKNOWN" = some c ∧
        GoError.errorString "no configuration found for prefix UNKNOWN"
          = GoError.wrapError ("failed to create sequence " ++ c.SeqName ++ ": " ++ e.Error) e ∧
        containsText ("failed to create sequence " ++ c.SeqName ++ ": ") c.SeqName = true) ∨
      (∃ c e, sgORD.Config.lookup "UNKNOWN" = some c ∧
        GoError.errorString "no configuration found for prefix UNKNOWN"
          = GoError.wrapError ("failed to generate next ID: " ++ e.Error) e) :=
  error_messages_by_stage seqDB sgORD "UNKNOWN" []
    (GoError.errorString "no configuration found for prefix UNKNOWN") (by decide)


/-! ## The creation statement and its quoted name -/

theorem doubleQuotes_flatMap (l : List Char) :
    doubleQuotes l = l.flatMap (fun c => if c = dquote then [dquote, dquote] else [c]) := by
  induction l with
  | nil => rfl
  | cons c l ih =>
    by_cases h : c = dquote
    · simp [doubleQuotes, h, ih, List.flatMap_cons]
    · simp [doubleQuotes, h, ih, List.flatMap_cons]

theorem scanQuotedBody_other (c : Char) (rest : List Char) (hc : c ≠ dquote)
    (hrest : rest ≠ []) :
    scanQuotedBody (c :: rest) = (scanQuotedBody rest).map (fun r => (c :: r.1, r.2)) := by
  cases rest with
  | nil => exact absurd rfl hrest
  | cons d ds => simp [scanQuotedBody, hc]

theorem scanQuotedBody_doubled (ds : List Char) :
    scanQuotedBody (dquote :: dquote :: ds)
      = (scanQuotedBody ds).map (fun r => (dquote :: r.1, r.2)) := by
  simp [scanQuotedBody]

/-- Reading back a body written by `doubleQuotes` and closed by a quote yields the
original characters and leaves nothing unread. -/
theorem scanQuotedBody_doubleQuotes (l : List Char) :
    scanQuotedBody (doubleQuotes l ++ [dquote]) = some (l, []) := by
  induction l with
  | nil => simp [doubleQuotes, scanQuotedBody]
  | cons c l ih =>
    by_cases h : c = dquote
    · subst h
      simp only [doubleQuotes, if_true, List.cons_append]
      rw [scanQuotedBody_doubled, ih]
      rfl
    · simp only [doubleQuotes, h, if_false, List.cons_append]
      rw [scanQuotedBody_other c _ h (by simp), ih]
      rfl

/-- C14: the creation statement for a counter name `n` is
`CREATE SEQUENCE IF NOT EXISTS ` followed by the quoted name and
` INCREMENT BY 1 START WITH 1 MINVALUE 1 NO CYCLE`, and it is the only statement
`ensureSequenceExists` can issue; the quoted name is `n` cut at its first NUL with
every double quote doubled, between two double quotes; reading it as a
double-quoted SQL identifier consumes all of it and yields `n` up to its first
NUL. -/
theorem creation_statement_text (n : String) :
    createQuery n = "CREATE SEQUENCE IF NOT EXISTS " ++ QuoteIdentifier n
        ++ " INCREMENT BY 1 START WITH 1 MINVALUE 1 NO CYCLE" ∧
      (∀ (H σ : Type) (db : Database H σ) (sg : SequenceGenerator H) (world : σ),
        (ensureSequenceExists db sg n world).log = [] ∨
          ∃ err, (ensureSequenceExists db sg n world).log
            = [DBCall.Exec ("CREATE SEQUENCE IF NOT EXISTS " ++ QuoteIdentifier n
                ++ " INCREMENT BY 1 START WITH 1 MINVALUE 1 NO CYCLE") err]) ∧
      QuoteIdentifier n = quotedSpec n ∧
      scanQuotedIdentifier (QuoteIdentifier n).data = some (cutAtNUL n.data, []) := by
  refine ⟨rfl, ?_, ?_, ?_⟩
  · intro H σ db sg world
    by_cases hm : mapGet sg.createdSequences n = true
    · rw [ensure_fast db sg n world hm]; exact Or.inl rfl
    · have hm0 : mapGet sg.createdSequences n = false := by simpa using hm
      rcases hx : db.Exec sg.DB (createQuery n) world with ⟨err, world1⟩
      cases err with
      | some e =>
        rw [ensure_slow_fail db sg n world world1 e hm0 hx]; exact Or.inr ⟨_, rfl⟩
      | none =>
        rw [ensure_slow_ok db sg n world world1 hm0 hx]; exact Or.inr ⟨_, rfl⟩
  · simp only [QuoteIdentifier, quotedSpec, cutAtNUL, doubleQuotes_flatMap]
    rfl
  · show scanQuotedIdentifier (dquote :: (doubleQuotes (cutAtNUL n.data) ++ [dquote])) = _
    simp only [scanQuotedIdentifier, if_true]
    exact scanQuotedBody_doubleQuotes _

/-! ## Construction, frame and order of the database calls -/

/-- C15: for every handle and every configuration mapping (the empty one
included), `NewSequenceGenerator` returns a nil error and a generator holding the
given mapping and handle and an empty existence cache; it makes no database call
and leaves the server as it was. -/
theorem NewSequenceGenerator_result {H σ : Type} (h : H) (cfg : PrefixConfig) (world : σ) :
    (NewSequenceGenerator h cfg world).ret = none ∧
      (NewSequenceGenerator h cfg world).sg.Config = cfg ∧
      (NewSequenceGenerator h cfg world).sg.DB = h ∧
      (NewSequenceGenerator h cfg world).sg.createdSequences = [] ∧
      (∀ n, mapGet (NewSequenceGenerator h cfg world).sg.createdSequences n = false) ∧
      (NewSequenceGenerator h cfg world).log = [] ∧
      (NewSequenceGenerator h cfg world).world = world :=
  ⟨rfl, rfl, rfl, rfl, fun _ => rfl, rfl, rfl⟩

theorem ensure_frame {H σ : Type} (db : Database H σ) (sg : SequenceGenerator H)
    (n : String) (world : σ) :
    (ensureSequenceExists db sg n world).sg.createdSequences = sg.createdSequences ∨
      (ensureSequenceExists db sg n world).sg.createdSequences
        = mapSet sg.createdSequences n true := by
  by_cases hm : mapGet sg.createdSequences n = true
  · rw [ensure_fast db sg n world hm]; exact Or.inl rfl
  · have hm0 : mapGet sg.createdSequences n = false := by simpa using hm
    rcases hx : db.Exec sg.DB (createQuery n) world with ⟨err, world1⟩
    cases err with
    | some e => rw [ensure_slow_fail db sg n world world1 e hm0 hx]; exact Or.inl rfl
    | none => rw [ensure_slow_ok db sg n world world1 hm0 hx]; exact Or.inr rfl

/-- C16: whatever the generator state, the prefix and the outcome of the database
calls, `GenerateID` leaves the configuration mapping and the handle unchanged; the
existence cache is either unchanged or the old one with the counter name of the
requested prefix set to true, so every other name reads as before. -/
theorem GenerateID_frame {H σ : Type} (db : Database H σ) (sg : SequenceGenerator H)
    (p : String) (world : σ) :
    (GenerateID db sg p world).sg.Config = sg.Config ∧
      (GenerateID db sg p world).sg.DB = sg.DB ∧
      ((GenerateID db sg p world).sg.createdSequences = sg.createdSequences ∨
        ∃ c, sg.Config.lookup p = some c ∧
          (GenerateID db sg p world).sg.createdSequences
            = mapSet sg.createdSequences c.SeqName true) ∧
      (∀ m : String, (∀ c, sg.Config.lookup p = some c → m ≠ c.SeqName) →
        mapGet (GenerateID db sg p world).sg.createdSequences m
          = mapGet sg.createdSequences m) := by
  rcases hcfg : sg.Config.lookup p with _ | c
  · rw [GenerateID_unconfigured db sg p world hcfg]
    exact ⟨rfl, rfl, Or.inl rfl, fun _ _ => rfl⟩
  · rw [(GenerateID_configured db sg p world c hcfg).1]
    refine ⟨ensure_Config db sg c.SeqName world, ensure_DB db sg c.SeqName world, ?_, ?_⟩
    · rcases ensure_frame db sg c.SeqName world with h | h
      · exact Or.inl h
      · exact Or.inr ⟨c, rfl, h⟩
    · intro m hmc
      rcases ensure_frame db sg c.SeqName world with h | h
      · rw [h]
      · rw [h, mapGet_mapSet_ne _ _ _ _ (hmc c rfl)]

/-- C17: for a configured prefix `p` whose counter name `n` is unmarked, when the
creation statement and the fetch both succeed, `GenerateID(p)` issues exactly two
database calls, first the creation statement for `n`, then one fetch whose
argument is `n`; afterwards `n` is marked. -/
theorem first_call_creates_then_fetches {H σ : Type} (db : Database H σ)
    (sg : SequenceGenerator H) (world world1 world2 : σ) (p n : String) (w v : Int)
    (hcfg : sg.Config.lookup p = some ⟨w, n⟩)
    (hm : mapGet sg.createdSequences n = false)
    (hexec : db.Exec sg.DB (createQuery n) world = (none, world1))
    (hfetch : db.RawScan sg.DB nextvalQuery n world1 = (ScanResult.value v, world2)) :
    (GenerateID db sg p world).log
        = [DBCall.Exec (createQuery n) none,
            DBCall.RawScan nextvalQuery n (ScanResult.value v)] ∧
      execCount (GenerateID db sg p world).log = 1 ∧
      fetchCount (GenerateID db sg p world).log = 1 ∧
      mapGet (GenerateID db sg p world).sg.createdSequences n = true ∧
      (GenerateID db sg p world).ret = (⟨Sprintf p w v⟩, none) := by
  have he := ensure_slow_ok db sg n world world1 hm hexec
  have hf : db.RawScan sg.DB nextvalQuery n (ensureSequenceExists db sg n world).world
      = (ScanResult.value v, world2) := by rw [he]; exact hfetch
  rw [GenerateID_fetch_ok db sg p world world2 ⟨w, n⟩ v hcfg (by rw [he]) hf, he]
  exact ⟨rfl, rfl, rfl, mapGet_mapSet_self _ _ _, rfl⟩

theorem first_call_creates_then_fetches_witness :
    (GenerateID seqDB sgORD "ORD" []).log
      = [DBCall.Exec (createQuery "ord_seq") none,
          DBCall.RawScan nextvalQuery "ord_seq" (ScanResult.value 1)] :=
  (first_call_creates_then_fetches seqDB sgORD [] [(createQuery "ord_seq", 0)]
    [(createQuery "ord_seq", 1)] "ORD" "ord_seq" 4 1
    (by decide) (by decide) (by decide) (by decide)).1

/-! ## Where the marks of the existence cache come from -/

theorem mapGet_mapSet_true (m : List (String × Bool)) (k j : String)
    (h : mapGet (mapSet m k true) j = true) : j = k ∨ mapGet m j = true := by
  by_cases hjk : j = k
  · exact Or.inl hjk
  · rw [mapGet_mapSet_ne _ _ _ _ hjk] at h
    exact Or.inr h

/-- A name marked after a call was marked before it, or the call is for a prefix
configured with that name and issued a creation statement that succeeded. -/
theorem GenerateID_mark_origin {H σ : Type} (db : Database H σ) (sg : SequenceGenerator H)
    (p n : String) (world : σ)
    (h : mapGet (GenerateID db sg p world).sg.createdSequences n = true) :
    mapGet sg.createdSequences n = true ∨
      (usesSeq sg.Config n p = true ∧
        DBCall.Exec (createQuery n) none ∈ (GenerateID db sg p world).log) := by
  rcases hcfg : sg.Config.lookup p with _ | c
  · rw [GenerateID_unconfigured db sg p world hcfg] at h
    exact Or.inl h
  · obtain ⟨hsg, hlog⟩ := GenerateID_configured db sg p world c hcfg
    rw [hsg] at h
    by_cases hm : mapGet sg.createdSequences c.SeqName = true
    · rw [ensure_fast db sg c.SeqName world hm] at h
      exact Or.inl h
    · have hm0 : mapGet sg.createdSequences c.SeqName = false := by simpa using hm
      rcases hx : db.Exec sg.DB (createQuery c.SeqName) world with ⟨r, world1⟩
      cases r with
      | some e =>
        rw [ensure_slow_fail db sg c.SeqName world world1 e hm0 hx] at h
        exact Or.inl h
      | none =>
        have he := ensure_slow_ok db sg c.SeqName world world1 hm0 hx
        rw [he] at h hlog
        rcases mapGet_mapSet_true _ _ _ h with hn | hn
        · subst hn
          refine Or.inr ⟨(usesSeq_iff sg.Config c.SeqName p).mpr ⟨c, hcfg, rfl⟩, ?_⟩
          rcases hlog with ⟨_, hl⟩ | ⟨_, res, hl⟩
          · rw [hl]; simp
          · rw [hl]; simp
        · exact Or.inl hn

theorem runState_mark_origin {H σ : Type} (db : Database H σ) (cfg : PrefixConfig)
    (n : String) (ps : List String) : ∀ (sg : SequenceGenerator H) (world : σ),
    sg.Config = cfg →
    mapGet (runState db sg world ps).1.createdSequences n = true →
    mapGet sg.createdSequences n = true ∨
      ∃ r ∈ runCalls db sg world ps, usesSeq cfg n r.1 = true ∧
        DBCall.Exec (createQuery n) none ∈ r.2.log := by
  induction ps with
  | nil => intro sg world _ h; exact Or.inl h
  | cons p ps ih =>
    intro sg world hsg h
    simp only [runState] at h
    rcases ih (GenerateID db sg p world).sg (GenerateID db sg p world).world
        (by rw [GenerateID_Config, hsg]) h with h1 | ⟨r, hr, hu, hl⟩
    · rcases GenerateID_mark_origin db sg p n world h1 with h2 | ⟨hu, hl⟩
      · exact Or.inl h2
      · rw [hsg] at hu
        exact Or.inr ⟨(p, GenerateID db sg p world), by simp [runCalls], hu, hl⟩
    · exact Or.inr ⟨r, by simp only [runCalls, List.mem_cons]; exact Or.inr hr, hu, hl⟩

/-- C18: starting from the generator `NewSequenceGenerator` returns, after every
finite sequence of `GenerateID` calls (any prefixes, any database), every counter
name marked in the existence cache is one for which a call of the sequence, made
for a prefix configured with that name, issued a creation statement that
succeeded. -/
theorem marked_names_were_created {H σ : Type} (db : Database H σ) (h : H)
    (cfg : PrefixConfig) (world : σ) (ps : List String) (n : String)
    (hmark : mapGet (runState db (NewSequenceGenerator h cfg world).sg
      (NewSequenceGenerator h cfg world).world ps).1.createdSequences n = true) :
    ∃ r ∈ runCalls db (NewSequenceGenerator h cfg world).sg
        (NewSequenceGenerator h cfg world).world ps,
      usesSeq cfg n r.1 = true ∧ DBCall.Exec (createQuery n) none ∈ r.2.log := by
  rcases runState_mark_origin db cfg n ps _ _ rfl hmark with h0 | h1
  · exact absurd h0 (by simp [NewSequenceGenerator, mapGet])
  · exact h1

theorem marked_names_were_created_witness :
    ∃ r ∈ runCalls seqDB
        (NewSequenceGenerator () sgTwo.Config ([] : List (String × Int))).sg
        (NewSequenceGenerator () sgTwo.Config ([] : List (String × Int))).world
        ["INV", "ORD", "ORD"],
      usesSeq sgTwo.Config "ord_seq" r.1 = true ∧
        DBCall.Exec (createQuery "ord_seq") none ∈ r.2.log :=
  marked_names_were_created seqDB () sgTwo.Config [] ["INV", "ORD", "ORD"] "ord_seq"
    (by decide)

end Ssid
